import Mathlib

/-!
Verification of the interview-analysis pipeline (`pipeline/utils.py`,
`pipeline/models.py`, `pipeline/pipeline.py`).

The Python code is shallowly embedded as executable Lean definitions:

* Python dict values that appear in a transcript payload are either strings
  or one nested string-to-string mapping (the `transcript` wrapper shape);
  they are embedded as `PyVal`.  Dicts are association lists in insertion
  order (real Python dicts have no duplicate keys).
* Functions that can raise a Python exception return `Except String α`,
  the error carrying the exception text.
* The two generation chains (langchain / Gemini) are external collaborators;
  they are parameters of the model (`Env`), indexed by the 1-based attempt
  number of the enclosing retry loop.
* `hashlib.md5(...).hexdigest()` is reimplemented bit-for-bit on `Nat`
  (`md5_hex`), with machine words kept below `2 ^ 32` by explicit `%`.
-/

set_option maxRecDepth 40000

deriving instance DecidableEq for Except

/-! ## Python string primitives -/

/-- ASCII lowering of one character, modelling `str.lower` on the key
alphabet actually used (transcript field names). -/
def lowerChar (c : Char) : Char :=
  if 65 ≤ c.toNat ∧ c.toNat ≤ 90 then Char.ofNat (c.toNat + 32) else c

/-- `s.lower()` (ASCII range). -/
def lowerStr (s : String) : String := String.mk (s.data.map lowerChar)

/-- Does `l` start with `p`?  (Char-list version of `str.startswith`.) -/
def chStarts : List Char → List Char → Bool
  | _, [] => true
  | [], _ :: _ => false
  | a :: as, b :: bs => a == b && chStarts as bs

/-- `s.startswith(p)`. -/
def strStarts (s p : String) : Bool := chStarts s.data p.data

/-- Substring containment over char lists, modelling Python `sub in s`. -/
def chHasSub : List Char → List Char → Bool
  | l, sub =>
    chStarts l sub ||
      match l with
      | [] => false
      | _ :: t => chHasSub t sub

/-- Python `sub in s` for strings. -/
def hasSubstr (s sub : String) : Bool := chHasSub s.data sub.data

/-- The whitespace set of `str.strip()` (ASCII part). -/
def pyIsSpace (c : Char) : Bool :=
  c == ' ' || c == '\t' || c == '\n' || c == '\x0d' || c == '\x0b' || c == '\x0c'

/-- Python `not s or not s.strip()`: the string is empty or all whitespace. -/
def strIsBlank (s : String) : Bool := s.data.all pyIsSpace

/-- A single-quote character, used when rebuilding Python f-string output. -/
def squo : String := String.singleton (Char.ofNat 39)

/-- Strict lexicographic comparison of char lists by code point,
modelling Python string `<`. -/
def listLt : List Char → List Char → Bool
  | _, [] => false
  | [], _ :: _ => true
  | a :: as, b :: bs => a.toNat < b.toNat || (a == b && listLt as bs)

/-- Python string `<`. -/
def pyStrLt (a b : String) : Bool := listLt a.data b.data

/-- Rendering of `Optional[str]` inside an f-string (`None` prints as such). -/
def optStr : Option String → String
  | none => "None"
  | some s => s

/-! ## Transcript payloads -/

/-- A transcript payload value: an utterance string, or the nested
string-to-string mapping found under a `transcript` wrapper key
(`main.py` also passes an opaque `metadata` mapping through). -/
inductive PyVal where
  | str : String → PyVal
  | obj : List (String × String) → PyVal
deriving DecidableEq

/-- Injects a flat string-to-string mapping into the payload type. -/
def strDict (d : List (String × String)) : List (String × PyVal) :=
  d.map fun kv => (kv.1, PyVal.str kv.2)

/-- Rendering of a payload value inside an f-string.  A nested dict renders
through its `repr` (quotes around keys and values); no claim exercises the
escaping inside that `repr`, so special characters are left as-is. -/
def pyValStr : PyVal → String
  | .str s => s
  | .obj d =>
      "\x7b" ++
        String.intercalate ", "
          (d.map fun kv => squo ++ kv.1 ++ squo ++ ": " ++ squo ++ kv.2 ++ squo) ++
      "\x7d"

/-! ## `format_transcript`  (utils.py lines 4-26) -/

/-- The `sort_key` closure of `format_transcript`: interviewer keys rank 0,
candidate keys rank 1, everything else rank 2; ties broken by the key
literal. -/
def sort_key (k : String) : Nat × String :=
  if hasSubstr (lowerStr k) "interviewer" then (0, k)
  else if hasSubstr (lowerStr k) "candidate" then (1, k)
  else (2, k)

/-- Python tuple `<=` on `(rank, key)` pairs (what `sorted` orders by). -/
def tupLe (a b : Nat × String) : Bool :=
  decide (a.1 < b.1) || (decide (a.1 = b.1) && !(pyStrLt b.2 a.2))

/-- The ordering relation `sorted(keys, key=sort_key)` sorts by. -/
def keyRel (a b : String) : Prop := tupLe (sort_key a) (sort_key b) = true

instance : DecidableRel keyRel := fun a b => inferInstanceAs (Decidable (_ = true))

/-- `sorted(transcript_obj.keys(), key=sort_key)`.  Python uses a stable
sort; because the key literal itself is part of the sort key, `keyRel` is
antisymmetric and the sorted permutation is unique, so insertion sort
produces the same list. -/
def sortedKeys (d : List (String × PyVal)) : List String :=
  List.insertionSort keyRel (d.map Prod.fst)

/-- Role classification of the rendering loop: `"Interviewer" if
"interviewer" in key.lower() else "Candidate"`. -/
def roleLabel (k : String) : String :=
  if hasSubstr (lowerStr k) "interviewer" then "Interviewer" else "Candidate"

/-- The body of `format_transcript` once `transcript_obj` is known to be a
dict: render `"Role: text"` lines in sorted key order, joined by blank
lines. -/
def formatFlatPV (d : List (String × PyVal)) : String :=
  String.intercalate "\n\n"
    ((sortedKeys d).map fun k =>
      roleLabel k ++ ": " ++ pyValStr ((d.lookup k).getD (PyVal.str "")))

/-- `formatFlatPV` on a flat string-to-string mapping. -/
def formatFlat (d : List (String × String)) : String := formatFlatPV (strDict d)

/-- The `AttributeError` raised when the value found under a `transcript`
key is a plain string and `.keys()` is called on it. -/
def attrErrKeys : String :=
  "AttributeError: " ++ squo ++ "str" ++ squo ++ " object has no attribute " ++ squo ++ "keys" ++ squo

/-- `format_transcript` (utils.py lines 4-26): unwrap a `transcript` key if
present, then sort keys and render.  If the unwrapped value is a string,
`sorted(transcript_obj.keys(), ...)` raises. -/
def format_transcript (transcript_obj : List (String × PyVal)) : Except String String :=
  match transcript_obj.lookup "transcript" with
  | some (.str _) => .error attrErrKeys
  | some (.obj inner) => .ok (formatFlat inner)
  | none => .ok (formatFlatPV transcript_obj)

/-! ## `validate_transcript`  (utils.py lines 29-55) -/

/-- The `AttributeError` raised by `value.strip()` when an entry value is a
dict. -/
def attrErrStrip : String :=
  "AttributeError: " ++ squo ++ "dict" ++ squo ++ " object has no attribute " ++ squo ++ "strip" ++ squo

/-- One step of the content-completeness loop: is this entry value empty
(Python-falsy or whitespace-only)?  A non-empty dict value raises on
`.strip()`. -/
def entryEmpty : PyVal → Except String Bool
  | .str s => .ok (strIsBlank s)
  | .obj d => if d.isEmpty then .ok true else .error attrErrStrip

/-- The `for key, value in transcript_obj.items()` loop of
`validate_transcript`: first empty entry fails, naming the key. -/
def checkEntries : List (String × PyVal) → Except String (Bool × Option String)
  | [] => .ok (true, none)
  | (k, v) :: rest =>
    match entryEmpty v with
    | .error e => .error e
    | .ok true => .ok (false, some ("Entry " ++ squo ++ k ++ squo ++ " is empty"))
    | .ok false => checkEntries rest

/-- `validate_transcript` once `transcript_obj` is known to be a dict:
the four ordered, short-circuiting checks. -/
def validateFlat (t : List (String × PyVal)) : Except String (Bool × Option String) :=
  if t.isEmpty then .ok (false, some "Transcript cannot be empty")
  else if t.length < 2 then .ok (false, some "Transcript must have at least 2 exchanges")
  else if !(t.any fun kv => hasSubstr (lowerStr kv.1) "interviewer") then
    .ok (false, some "Transcript must include interviewer questions")
  else if !(t.any fun kv => hasSubstr (lowerStr kv.1) "candidate") then
    .ok (false, some "Transcript must include candidate responses")
  else checkEntries t

/-- `validate_transcript` when the unwrapped value is a plain string: the
truthiness and `len` checks still apply to the string, after which
`.keys()` raises. -/
def validateStr (s : String) : Except String (Bool × Option String) :=
  if s.length = 0 then .ok (false, some "Transcript cannot be empty")
  else if s.length < 2 then .ok (false, some "Transcript must have at least 2 exchanges")
  else .error attrErrKeys

/-- `validate_transcript` (utils.py lines 29-55). -/
def validate_transcript (transcript_obj : List (String × PyVal)) :
    Except String (Bool × Option String) :=
  match transcript_obj.lookup "transcript" with
  | some (.str s) => validateStr s
  | some (.obj inner) => validateFlat (strDict inner)
  | none => validateFlat transcript_obj

/-! ## Report data model  (models.py) -/

inductive SnippetKind where
  | positive | negative | neutral
deriving DecidableEq

structure PerformanceSnippet where
  topic : String
  quote : String
  assessment : String
  kind : SnippetKind
deriving DecidableEq

structure AnalysisReport where
  snippets : List PerformanceSnippet
deriving DecidableEq

structure CandidateSummary where
  headline : String
  overall_impression : String
deriving DecidableEq

structure StrengthInsight where
  skill : String
  evidence : String
deriving DecidableEq

inductive PriorityKind where
  | high | medium | low
deriving DecidableEq

structure WeaknessInsight where
  skill : String
  evidence : String
  priority : PriorityKind
deriving DecidableEq

structure Insights where
  strengths : List StrengthInsight
  weaknesses : List WeaknessInsight
deriving DecidableEq

structure RoadmapStep where
  timespan : String
  focus : String
  activities : List String
deriving DecidableEq

structure RecommendedResource where
  topic : String
  link : String
  reason : String
deriving DecidableEq

structure DevelopmentPlan where
  priority_topics : List String
  roadmap_2_weeks : List RoadmapStep
  recommended_resources : List RecommendedResource
deriving DecidableEq

structure FinalReport where
  candidate_summary : CandidateSummary
  insights : Insights
  development_plan : DevelopmentPlan
deriving DecidableEq

/-! ## `validate_report_quality`  (utils.py lines 58-80) -/

/-- The per-resource link checks of `validate_report_quality`:
`elif` gives at most one issue per resource. -/
def resourceIssues (resource : RecommendedResource) : List String :=
  if strIsBlank resource.link then
    ["Resource " ++ squo ++ resource.topic ++ squo ++ " has empty link"]
  else if !(strStarts resource.link "http://" || strStarts resource.link "https://") then
    ["Resource " ++ squo ++ resource.topic ++ squo ++ " has invalid link format"]
  else []

/-- `validate_report_quality` (utils.py lines 58-80): append one issue per
violated check, in source order, and return `(len(issues) == 0, issues)`. -/
def validate_report_quality (report : FinalReport) : Bool × List String :=
  let issues :=
    (if report.candidate_summary.headline.length < 20 then
      ["Headline is too short/generic"] else []) ++
    (if report.candidate_summary.overall_impression.length < 50 then
      ["Overall impression lacks detail"] else []) ++
    (if report.insights.strengths.length = 0 then
      ["No strengths identified"] else []) ++
    (if report.insights.weaknesses.length = 0 then
      ["No weaknesses identified"] else []) ++
    (if report.development_plan.priority_topics.length = 0 then
      ["No priority topics defined"] else []) ++
    (if report.development_plan.roadmap_2_weeks.length < 2 then
      ["2-week roadmap insufficiently detailed"] else []) ++
    (if report.development_plan.recommended_resources.length = 0 then
      ["No learning resources provided"] else []) ++
    report.development_plan.recommended_resources.flatMap resourceIssues
  (issues.isEmpty, issues)

/-! ## MD5  (`hashlib.md5(text.encode()).hexdigest()`) -/

/-- UTF-8 encoding of one character as byte values (`str.encode()`). -/
def utf8Bytes (c : Char) : List Nat :=
  let n := c.toNat
  if n < 0x80 then [n]
  else if n < 0x800 then [0xc0 + n / 64, 0x80 + n % 64]
  else if n < 0x10000 then [0xe0 + n / 4096, 0x80 + (n / 64) % 64, 0x80 + n % 64]
  else [0xf0 + n / 262144, 0x80 + (n / 4096) % 64, 0x80 + (n / 64) % 64, 0x80 + n % 64]

/-- `s.encode()`: the UTF-8 bytes of a string. -/
def strBytes (s : String) : List Nat := s.data.flatMap utf8Bytes

/-- Bitwise combination of two naturals, lowest `fuel` bits.  (Structural
recursion so that the kernel can evaluate it; `Nat.land` and friends are
defined by well-founded recursion and do not reduce.) -/
def bitZip (f : Nat → Nat → Nat) : Nat → Nat → Nat → Nat
  | 0, _, _ => 0
  | fuel + 1, x, y => f (x % 2) (y % 2) + 2 * bitZip f fuel (x / 2) (y / 2)

/-- 32-bit bitwise and. -/
def and32 (x y : Nat) : Nat := bitZip (fun a b => a * b) 32 x y

/-- 32-bit bitwise or. -/
def or32 (x y : Nat) : Nat := bitZip (fun a b => a + b - a * b) 32 x y

/-- 32-bit bitwise xor. -/
def xor32 (x y : Nat) : Nat := bitZip (fun a b => (a + b) % 2) 32 x y

/-- 32-bit bitwise complement (argument below `2 ^ 32`). -/
def not32 (x : Nat) : Nat := 4294967295 - x

/-- The 64 MD5 round constants (`floor(abs(sin(i + 1)) * 2^32)`). -/
def md5K : List Nat :=
  [0xd76aa478, 0xe8c7b756, 0x242070db, 0xc1bdceee, 0xf57c0faf, 0x4787c62a, 0xa8304613, 0xfd469501,
   0x698098d8, 0x8b44f7af, 0xffff5bb1, 0x895cd7be, 0x6b901122, 0xfd987193, 0xa679438e, 0x49b40821,
   0xf61e2562, 0xc040b340, 0x265e5a51, 0xe9b6c7aa, 0xd62f105d, 0x02441453, 0xd8a1e681, 0xe7d3fbc8,
   0x21e1cde6, 0xc33707d6, 0xf4d50d87, 0x455a14ed, 0xa9e3e905, 0xfcefa3f8, 0x676f02d9, 0x8d2a4c8a,
   0xfffa3942, 0x8771f681, 0x6d9d6122, 0xfde5380c, 0xa4beea44, 0x4bdecfa9, 0xf6bb4b60, 0xbebfbc70,
   0x289b7ec6, 0xeaa127fa, 0xd4ef3085, 0x04881d05, 0xd9d4d039, 0xe6db99e5, 0x1fa27cf8, 0xc4ac5665,
   0xf4292244, 0x432aff97, 0xab9423a7, 0xfc93a039, 0x655b59c3, 0x8f0ccc92, 0xffeff47d, 0x85845dd1,
   0x6fa87e4f, 0xfe2ce6e0, 0xa3014314, 0x4e0811a1, 0xf7537e82, 0xbd3af235, 0x2ad7d2bb, 0xeb86d391]

/-- The 64 MD5 per-round left-rotation amounts. -/
def md5S : List Nat :=
  [7, 12, 17, 22, 7, 12, 17, 22, 7, 12, 17, 22, 7, 12, 17, 22,
   5, 9, 14, 20, 5, 9, 14, 20, 5, 9, 14, 20, 5, 9, 14, 20,
   4, 11, 16, 23, 4, 11, 16, 23, 4, 11, 16, 23, 4, 11, 16, 23,
   6, 10, 15, 21, 6, 10, 15, 21, 6, 10, 15, 21, 6, 10, 15, 21]

/-- 32-bit left rotation. -/
def rotl32 (x s : Nat) : Nat := (x * 2 ^ s + x / 2 ^ (32 - s)) % 2 ^ 32

/-- MD5 padding: `0x80`, zeros to 56 mod 64, then the 64-bit little-endian
bit length. -/
def md5Pad (msg : List Nat) : List Nat :=
  let L := msg.length
  let k := (56 - (L + 1) % 64 + 64) % 64
  msg ++ [0x80] ++ List.replicate k 0 ++
    (List.range 8).map (fun i => (L * 8) / 2 ^ (8 * i) % 256)

/-- Word `j` of a chunk, read little-endian. -/
def leWord (bs : List Nat) (j : Nat) : Nat :=
  bs.getD (4 * j) 0 + bs.getD (4 * j + 1) 0 * 256 +
    bs.getD (4 * j + 2) 0 * 65536 + bs.getD (4 * j + 3) 0 * 16777216

/-- The MD5 round function and message-word schedule for round `i`. -/
def md5FG (b c d i : Nat) : Nat × Nat :=
  if i < 16 then (or32 (and32 b c) (and32 (not32 b) d), i)
  else if i < 32 then (or32 (and32 d b) (and32 (not32 d) c), (5 * i + 1) % 16)
  else if i < 48 then (xor32 (xor32 b c) d, (3 * i + 5) % 16)
  else (xor32 c (or32 b (not32 d)), (7 * i) % 16)

/-- One 512-bit MD5 chunk. -/
def md5Chunk (chunk : List Nat) (st : Nat × Nat × Nat × Nat) : Nat × Nat × Nat × Nat :=
  let r := (List.range 64).foldl (fun (st : Nat × Nat × Nat × Nat) i =>
    let (a, b, c, d) := st
    let (f, g) := md5FG b c d i
    let nb := (b + rotl32 ((a + f + md5K.getD i 0 + leWord chunk g) % 2 ^ 32)
        (md5S.getD i 0)) % 2 ^ 32
    (d, nb, b, c)) st
  let (a0, b0, c0, d0) := st
  let (a, b, c, d) := r
  ((a0 + a) % 2 ^ 32, (b0 + b) % 2 ^ 32, (c0 + c) % 2 ^ 32, (d0 + d) % 2 ^ 32)

/-- Splits a byte list into 64-byte chunks (fuel-structured so the kernel
can evaluate it; the fuel `l.length` always suffices). -/
def chunksFuel : Nat → List Nat → List (List Nat)
  | 0, _ => []
  | _, [] => []
  | fuel + 1, x :: rest => (x :: rest).take 64 :: chunksFuel fuel ((x :: rest).drop 64)

/-- 64-byte chunks of a byte list. -/
def listChunks (l : List Nat) : List (List Nat) := chunksFuel l.length l

/-- Lower-case hex digit. -/
def hexChar (n : Nat) : Char := Char.ofNat (if n < 10 then 48 + n else 87 + n)

/-- Two hex digits of one byte. -/
def byteHex (b : Nat) : List Char := [hexChar (b / 16), hexChar (b % 16)]

/-- Eight hex digits of one 32-bit word, little-endian byte order. -/
def wordHexLE (w : Nat) : List Char :=
  byteHex (w % 256) ++ byteHex (w / 256 % 256) ++
    byteHex (w / 65536 % 256) ++ byteHex (w / 16777216 % 256)

/-- `hashlib.md5(s.encode()).hexdigest()` — the cache fingerprint of
`InterviewAnalysisPipeline._get_cache_key` (pipeline.py lines 133-134). -/
def md5_hex (s : String) : String :=
  let padded := md5Pad (strBytes s)
  let (a, b, c, d) := (listChunks padded).foldl (fun st ch => md5Chunk ch st)
      (0x67452301, 0xefcdab89, 0x98badcfe, 0x10325476)
  String.mk (wordHexLE a ++ wordHexLE b ++ wordHexLE c ++ wordHexLE d)

/-! ## Pipeline  (pipeline.py) -/

/-- The generation backend: the analyst chain consumes the formatted
transcript, the synthesis chain consumes the analyst output (through its
JSON serialization, which is part of this opaque boundary).  Each is
indexed by the 1-based attempt number inside a retry loop; `.error`
models `chain.invoke` raising. -/
structure Env where
  analyst : String → Nat → Except String AnalysisReport
  synthesis : AnalysisReport → Nat → Except String FinalReport

/-- Outcome of `_invoke_with_retry`: a returned value, a bare re-`raise` of
the last attempt error, or the loop completing with no attempt made
(`max_retries = 0`), in which case Python returns `None`. -/
inductive RetryOutcome (α : Type) where
  | ok (a : α)
  | exhausted (e : String)
  | fellThrough
deriving DecidableEq

/-- The `for attempt in range(1, max_retries + 1)` loop of
`_invoke_with_retry` (pipeline.py lines 136-148), also returning the log
lines emitted and the number of `chain.invoke` calls made.  `remaining`
counts the iterations left; callers start it at `max_retries` with
`attempt = 1`. -/
def retryLoop (stage : String) (call : Nat → Except String α) (max_retries : Nat) :
    Nat → Nat → RetryOutcome α × List String × Nat
  | 0, _ => (.fellThrough, [], 0)
  | remaining + 1, attempt =>
    let head := "[" ++ stage ++ "] Attempt " ++ toString attempt ++ "/" ++ toString max_retries
    match call attempt with
    | .ok r => (.ok r, [head, "[" ++ stage ++ "] ✓ Success"], 1)
    | .error e =>
      let warn := "[" ++ stage ++ "] Attempt " ++ toString attempt ++ " failed: " ++ e
      if attempt = max_retries then
        (.exhausted e, [head, warn, "[" ++ stage ++ "] All attempts failed"], 1)
      else
        let rest := retryLoop stage call max_retries remaining (attempt + 1)
        (rest.1, head :: warn :: ("[" ++ stage ++ "] Retrying...") :: rest.2.1, rest.2.2 + 1)

/-- `_invoke_with_retry(chain, input_data, stage_name)` with
`self.max_retries` attempts. -/
def invoke_with_retry (stage : String) (call : Nat → Except String α) (max_retries : Nat) :
    RetryOutcome α × List String × Nat :=
  retryLoop stage call max_retries max_retries 1

/-- Pipeline state: construction flags plus the cache dict.
`self.cache = {} if enable_cache else None`; `None` is modelled by the
empty list together with `enable_cache = false`, which guards every
access. -/
structure Pipeline where
  enable_cache : Bool
  max_retries : Nat
  cache : List (String × FinalReport)
deriving DecidableEq

/-- `InterviewAnalysisPipeline.__init__` (pipeline.py lines 32-51), state
part. -/
def mkPipeline (enable_cache : Bool) (max_retries : Nat) : Pipeline :=
  ⟨enable_cache, max_retries, []⟩

/-- Python dict assignment `cache[k] = v`: overwrite in place, else append. -/
def dictInsert (c : List (String × FinalReport)) (k : String) (v : FinalReport) :
    List (String × FinalReport) :=
  if (c.lookup k).isSome then c.map (fun kv => if kv.1 = k then (k, v) else kv)
  else c ++ [(k, v)]

/-- What an `analyze` call can do at its boundary: return a report, raise
`ValueError` (mapped to a 400 by `main.py`), or raise any other exception
(mapped to a 500). -/
inductive AnalyzeResult where
  | report (r : FinalReport)
  | valError (msg : String)
  | pyExc (msg : String)
deriving DecidableEq

/-- Observables of one `analyze` call: its boundary result, the cache dict
afterwards, how many generation-stage invocations (`_invoke_with_retry`
calls) were entered, how many backend (`chain.invoke`) calls were made,
and whether the result came from the cache-hit early return. -/
structure AnalyzeOut where
  result : AnalyzeResult
  cache : List (String × FinalReport)
  stageCalls : Nat
  backendCalls : Nat
  cacheHit : Bool
deriving DecidableEq

/-- The `AttributeError` raised by `len(analysis_report.snippets)` when
`_invoke_with_retry` fell through and returned `None` (pipeline.py line
181; only reachable with `max_retries = 0`). -/
def attrErrSnippets : String :=
  "AttributeError: " ++ squo ++ "NoneType" ++ squo ++ " object has no attribute " ++
    squo ++ "snippets" ++ squo

/-- The `AttributeError` raised downstream of the synthesis stage when it
fell through and `final_report` is `None` (unreachable: it would require
`max_retries = 0`, but then the analyst stage already fell through). -/
def attrErrSummary : String :=
  "AttributeError: " ++ squo ++ "NoneType" ++ squo ++ " object has no attribute " ++
    squo ++ "candidate_summary" ++ squo

/-- `analyze` from the cache-lookup line onwards (pipeline.py lines
169-205), given the formatted transcript. -/
def runStages (p : Pipeline) (env : Env) (fmt : String) (use_cache : Bool) : AnalyzeOut :=
  let cache_key := md5_hex fmt
  match (if use_cache && p.enable_cache then p.cache.lookup cache_key else none) with
  | some cached => ⟨.report cached, p.cache, 0, 0, true⟩
  | none =>
    let s1 := invoke_with_retry "Analyst" (env.analyst fmt) p.max_retries
    match s1.1 with
    | .exhausted e => ⟨.pyExc e, p.cache, 1, s1.2.2, false⟩
    | .fellThrough => ⟨.pyExc attrErrSnippets, p.cache, 1, s1.2.2, false⟩
    | .ok analysis_report =>
      let s2 := invoke_with_retry "Synthesis" (env.synthesis analysis_report) p.max_retries
      match s2.1 with
      | .exhausted e => ⟨.pyExc e, p.cache, 2, s1.2.2 + s2.2.2, false⟩
      | .fellThrough => ⟨.pyExc attrErrSummary, p.cache, 2, s1.2.2 + s2.2.2, false⟩
      | .ok final_report =>
        -- validate_output only logs validate_report_quality issues (lines
        -- 189-197); it cannot change the result, the cache, or raise.
        let newCache :=
          if use_cache && p.enable_cache then dictInsert p.cache cache_key final_report
          else p.cache
        ⟨.report final_report, newCache, 2, s1.2.2 + s2.2.2, false⟩

/-- `InterviewAnalysisPipeline.analyze` (pipeline.py lines 150-205). -/
def analyze (p : Pipeline) (env : Env) (transcript : List (String × PyVal))
    (validate_input validate_output use_cache : Bool) : AnalyzeOut :=
  -- validate_output is threaded through for fidelity but unobservable
  -- (quality validation only logs); see runStages.
  let _ := validate_output
  match (if validate_input then validate_transcript transcript else .ok (true, none)) with
  | .error e => ⟨.pyExc e, p.cache, 0, 0, false⟩
  | .ok (false, error_msg) =>
    ⟨.valError ("Invalid transcript: " ++ optStr error_msg), p.cache, 0, 0, false⟩
  | .ok (true, _) =>
    match format_transcript transcript with
    | .error e => ⟨.pyExc e, p.cache, 0, 0, false⟩
    | .ok formatted => runStages p env formatted use_cache

/-- `clear_cache` (pipeline.py lines 207-210): `if self.cache:` is falsy
for `None` and for an empty dict. -/
def clear_cache (p : Pipeline) : Pipeline :=
  if p.enable_cache && !p.cache.isEmpty then { p with cache := [] } else p

/-- The value of `get_cache_stats`: either just `{"enabled": False}` or the
full record with `size` and `keys`. -/
inductive CacheStats where
  | disabled
  | enabled (size : Nat) (keys : List String)
deriving DecidableEq

/-- `get_cache_stats` (pipeline.py lines 212-219). -/
def get_cache_stats (p : Pipeline) : CacheStats :=
  if !p.enable_cache then .disabled
  else .enabled p.cache.length (p.cache.map Prod.fst)

/-! ## Reference definitions (written from the specification text, to be
compared with the source-derived definitions above) -/

/-- Reference rendering per the specification: lines `"Role: text"` with
the role taken from the sort-key rank (rank 0 renders as Interviewer,
everything else as Candidate), keys ordered by `(role-rank, key-literal)`,
joined by blank-line separators. -/
def format_ref (m : List (String × String)) : String :=
  String.intercalate "\n\n"
    ((List.insertionSort keyRel (m.map Prod.fst)).map fun k =>
      (if (sort_key k).1 = 0 then "Interviewer" else "Candidate") ++ ": " ++
        ((m.lookup k).getD ""))

/-- Reference validation per the specification: ordered, short-circuiting
checks — emptiness, minimum exchange count, interviewer coverage,
candidate coverage, then the first entry whose text is empty or
all-whitespace (naming the offending key); otherwise success with no
message. -/
def validate_ref (m : List (String × String)) : Bool × Option String :=
  if m.length = 0 then (false, some "Transcript cannot be empty")
  else if m.length < 2 then (false, some "Transcript must have at least 2 exchanges")
  else if !(m.any fun kv => hasSubstr (lowerStr kv.1) "interviewer") then
    (false, some "Transcript must include interviewer questions")
  else if !(m.any fun kv => hasSubstr (lowerStr kv.1) "candidate") then
    (false, some "Transcript must include candidate responses")
  else
    match m.find? (fun kv => strIsBlank kv.2) with
    | some kv => (false, some ("Entry " ++ squo ++ kv.1 ++ squo ++ " is empty"))
    | none => (true, none)

/-- Reference quality checks per the specification, one issue per violated
check, in order. -/
def quality_ref (r : FinalReport) : List String :=
  (if ¬ 20 ≤ r.candidate_summary.headline.length then
    ["Headline is too short/generic"] else []) ++
  (if ¬ 50 ≤ r.candidate_summary.overall_impression.length then
    ["Overall impression lacks detail"] else []) ++
  (if r.insights.strengths.length = 0 then
    ["No strengths identified"] else []) ++
  (if r.insights.weaknesses.length = 0 then
    ["No weaknesses identified"] else []) ++
  (if r.development_plan.priority_topics.length = 0 then
    ["No priority topics defined"] else []) ++
  (if ¬ 2 ≤ r.development_plan.roadmap_2_weeks.length then
    ["2-week roadmap insufficiently detailed"] else []) ++
  (if r.development_plan.recommended_resources.length = 0 then
    ["No learning resources provided"] else []) ++
  r.development_plan.recommended_resources.flatMap resourceIssues

/-- A fully well-formed report in the sense of the quality specification. -/
def wellFormedReport (r : FinalReport) : Prop :=
  20 ≤ r.candidate_summary.headline.length ∧
  50 ≤ r.candidate_summary.overall_impression.length ∧
  r.insights.strengths ≠ [] ∧
  r.insights.weaknesses ≠ [] ∧
  r.development_plan.priority_topics ≠ [] ∧
  2 ≤ r.development_plan.roadmap_2_weeks.length ∧
  r.development_plan.recommended_resources ≠ [] ∧
  ∀ res ∈ r.development_plan.recommended_resources,
    strIsBlank res.link = false ∧
      (strStarts res.link "http://" || strStarts res.link "https://") = true

/-! ## Statement helpers -/

/-- Index of the first occurrence of `sub` in `l` (Python `str.index`). -/
def occIdx : List Char → List Char → Option Nat
  | [], sub => if chStarts [] sub then some 0 else none
  | a :: t, sub =>
    if chStarts (a :: t) sub then some 0 else (occIdx t sub).map (· + 1)

/-- Both substrings occur in `s` and the first occurs strictly before the
second. -/
def strBefore (s a b : String) : Bool :=
  match occIdx s.data a.data, occIdx s.data b.data with
  | some i, some j => decide (i < j)
  | _, _ => false

/-- Is this payload value a plain string? -/
def isStrVal : PyVal → Bool
  | .str _ => true
  | .obj _ => false

/-- The well-typed transcript shapes of the external interface: a flat
string-valued mapping with no literal `transcript` key, or any mapping
wrapping an inner string-valued mapping under `transcript`. -/
def goodShapeB (t : List (String × PyVal)) : Bool :=
  match t.lookup "transcript" with
  | none => t.all fun kv => isStrVal kv.2
  | some (.obj _) => true
  | some (.str _) => false

/-- Did the call return a report (as opposed to raising)? -/
def isReportB : AnalyzeResult → Bool
  | .report _ => true
  | _ => false

/-! ## Concrete fixtures used by witnesses and counterexamples -/

/-- A fully populated, well-formed final report. -/
def sampleReport : FinalReport :=
  { candidate_summary :=
      { headline := "Strong junior backend engineering candidate"
        overall_impression :=
          "The candidate showed solid fundamentals and a collaborative attitude throughout." }
    insights :=
      { strengths := [{ skill := "Communication", evidence := "Explained tradeoffs clearly" }]
        weaknesses :=
          [{ skill := "Databases", evidence := "Mixed up ACID consistency",
             priority := .high }] }
    development_plan :=
      { priority_topics := ["ACID properties"]
        roadmap_2_weeks :=
          [{ timespan := "Day 1-5", focus := "Databases", activities := ["Read about ACID"] },
           { timespan := "Day 6-10", focus := "Practice", activities := ["Build a demo"] }]
        recommended_resources :=
          [{ topic := "Databases", link := "https://example.com/db",
             reason := "Canonical reference" }] } }

/-- A one-snippet analysis report. -/
def sampleAnalysis : AnalysisReport :=
  { snippets :=
      [{ topic := "Databases", quote := "SQL is for structured data",
         assessment := "Basic but correct", kind := .neutral }] }

/-- A backend that always succeeds. -/
def envOk : Env := ⟨fun _ _ => .ok sampleAnalysis, fun _ _ => .ok sampleReport⟩

/-- A backend that always fails with the same error. -/
def envFail : Env := ⟨fun _ _ => .error "boom", fun _ _ => .error "boom"⟩

/-- A minimal flat transcript payload. -/
def tFlat : List (String × PyVal) :=
  [("interviewer", PyVal.str "q"), ("candidate", PyVal.str "a")]

/-- A flat string-valued mapping that happens to contain a literal
`transcript` key — the shape on which the unwrapping heuristic
misfires. -/
def mBad : List (String × String) := [("transcript", "x"), ("candidate", "y")]

/-- `mBad` as an `analyze` payload (values are strings; `transcript` maps
to the two-character string `ab`). -/
def tBad : List (String × PyVal) :=
  [("transcript", PyVal.str "ab"), ("candidate", PyVal.str "x")]

/-- The four-entry transcript of the ordering example. -/
def exOrder : List (String × String) :=
  [("candidate", "answer"), ("interviewer", "question"),
   ("candidate_1", "answer 2"), ("interviewer_1", "question 2")]

/-! ## Order lemmas for the sort relation -/

theorem char_eq_of_toNat_eq {a b : Char} (h : a.toNat = b.toNat) : a = b :=
  Char.ext (UInt32.ext h)

theorem listLt_asymm : ∀ a b : List Char, listLt a b = true → listLt b a = false
  | _ :: _, [], h => by simp [listLt] at h
  | [], [], h => by simp [listLt] at h
  | [], _ :: _, _ => by simp [listLt]
  | a :: as, b :: bs, h => by
    simp only [listLt, Bool.or_eq_true, Bool.and_eq_true, decide_eq_true_eq,
      beq_iff_eq] at h
    rcases h with h | ⟨rfl, h2⟩
    · have h1 : ¬ b.toNat < a.toNat := by omega
      have h2 : (b == a) = false := by
        refine beq_eq_false_iff_ne.mpr ?_
        intro e
        exact absurd (congrArg Char.toNat e) (by omega)
      simp [listLt, h1, h2]
    · simp [listLt, Nat.lt_irrefl, listLt_asymm as bs h2]

theorem listLt_conn : ∀ a b : List Char, listLt a b = false → listLt b a = false → a = b
  | [], [], _, _ => rfl
  | [], _ :: _, h, _ => by simp [listLt] at h
  | _ :: _, [], _, h => by simp [listLt] at h
  | a :: as, b :: bs, h, h' => by
    simp only [listLt, Bool.or_eq_false_iff, Bool.and_eq_false_iff,
      decide_eq_false_iff_not, beq_eq_false_iff_ne, ne_eq] at h h'
    obtain ⟨h1, h2⟩ := h
    obtain ⟨h1', h2'⟩ := h'
    have hab : a = b := char_eq_of_toNat_eq (by omega)
    subst hab
    rcases h2 with h2 | h2
    · exact absurd rfl h2
    rcases h2' with h2' | h2'
    · exact absurd rfl h2'
    rw [listLt_conn as bs h2 h2']

theorem listLt_trans : ∀ a b c : List Char,
    listLt a b = true → listLt b c = true → listLt a c = true
  | _, _, [], _, h2 => by simp [listLt] at h2
  | _, [], _ :: _, h1, _ => by simp [listLt] at h1
  | [], _ :: _, _ :: _, _, _ => by simp [listLt]
  | a :: as, b :: bs, c :: cs, h1, h2 => by
    simp only [listLt, Bool.or_eq_true, Bool.and_eq_true, decide_eq_true_eq,
      beq_iff_eq] at h1 h2 ⊢
    rcases h1 with h1 | ⟨rfl, h1'⟩
    · rcases h2 with h2 | ⟨rfl, h2'⟩
      · exact Or.inl (by omega)
      · exact Or.inl h1
    · rcases h2 with h2 | ⟨rfl, h2'⟩
      · exact Or.inl h2
      · exact Or.inr ⟨rfl, listLt_trans as bs cs h1' h2'⟩

theorem listLt_le_trans (a b c : List Char) (hba : listLt b a = false)
    (hcb : listLt c b = false) : listLt c a = false := by
  cases hca : listLt c a with
  | false => rfl
  | true =>
    cases hbc : listLt b c with
    | true => exact absurd (listLt_trans b c a hbc hca) (by simp [hba])
    | false =>
      have : b = c := listLt_conn b c hbc hcb
      subst this
      exact absurd hca (by simp [hba])

theorem sort_key_snd (k : String) : (sort_key k).2 = k := by
  unfold sort_key
  split_ifs <;> rfl

theorem keyRel_iff (a b : String) :
    keyRel a b ↔
      (sort_key a).1 < (sort_key b).1 ∨
        ((sort_key a).1 = (sort_key b).1 ∧ listLt b.data a.data = false) := by
  unfold keyRel tupLe pyStrLt
  rw [sort_key_snd, sort_key_snd]
  simp [Bool.or_eq_true, Bool.and_eq_true, Bool.not_eq_true']

instance : IsTotal String keyRel := by
  constructor
  intro a b
  rcases Nat.lt_trichotomy (sort_key a).1 (sort_key b).1 with h | h | h
  · exact Or.inl ((keyRel_iff a b).mpr (Or.inl h))
  · cases hab : listLt b.data a.data with
    | false => exact Or.inl ((keyRel_iff a b).mpr (Or.inr ⟨h, hab⟩))
    | true => exact Or.inr ((keyRel_iff b a).mpr (Or.inr ⟨h.symm, listLt_asymm _ _ hab⟩))
  · exact Or.inr ((keyRel_iff b a).mpr (Or.inl h))

instance : IsTrans String keyRel := by
  constructor
  intro a b c hab hbc
  rw [keyRel_iff] at hab hbc ⊢
  rcases hab with h1 | ⟨h1, h1'⟩
  · rcases hbc with h2 | ⟨h2, h2'⟩
    · exact Or.inl (by omega)
    · exact Or.inl (by omega)
  · rcases hbc with h2 | ⟨h2, h2'⟩
    · exact Or.inl (by omega)
    · exact Or.inr ⟨by omega, listLt_le_trans a.data b.data c.data h1' h2'⟩

instance : IsAntisymm String keyRel := by
  constructor
  intro a b hab hba
  rw [keyRel_iff] at hab hba
  rcases hab with h1 | ⟨h1, h1'⟩ <;> rcases hba with h2 | ⟨h2, h2'⟩
  · omega
  · omega
  · omega
  · exact String.ext (listLt_conn a.data b.data h2' h1')

/-! ## Lookup lemmas -/

theorem lookup_strDict (m : List (String × String)) (k : String) :
    (strDict m).lookup k = (m.lookup k).map PyVal.str := by
  induction m with
  | nil => rfl
  | cons kv rest ih =>
    obtain ⟨a, v⟩ := kv
    show List.lookup k ((a, PyVal.str v) :: strDict rest) = _
    cases h : k == a
    · simpa [List.lookup, h] using ih
    · simp [List.lookup, h]

theorem lookup_append_right_of_none {β : Type} (c : List (String × β)) (k : String)
    (v : β) (h : c.lookup k = none) : (c ++ [(k, v)]).lookup k = some v := by
  induction c with
  | nil => simp [List.lookup]
  | cons kv rest ih =>
    obtain ⟨a, b⟩ := kv
    cases ha : k == a with
    | true => simp [List.lookup, ha] at h
    | false =>
      simp only [List.cons_append, List.lookup, ha] at h ⊢
      exact ih h

theorem lookup_map_overwrite (c : List (String × FinalReport)) (k : String)
    (v : FinalReport) (hs : (c.lookup k).isSome = true) :
    (c.map (fun kv => if kv.1 = k then (k, v) else kv)).lookup k = some v := by
  induction c with
  | nil => simp [List.lookup] at hs
  | cons kv rest ih =>
    obtain ⟨a, b⟩ := kv
    simp only [List.map_cons]
    by_cases ha : a = k
    · subst ha
      rw [show (if ((a, b) : String × FinalReport).1 = a then (a, v) else (a, b)) = (a, v)
        from if_pos rfl]
      simp [List.lookup]
    · rw [show (if ((a, b) : String × FinalReport).1 = k then (k, v) else (a, b)) = (a, b)
        from if_neg ha]
      have hka : (k == a) = false := beq_eq_false_iff_ne.mpr (Ne.symm ha)
      simp only [List.lookup, hka] at hs ⊢
      exact ih hs

theorem lookup_dictInsert_self (c : List (String × FinalReport)) (k : String)
    (v : FinalReport) : (dictInsert c k v).lookup k = some v := by
  unfold dictInsert
  cases hs : (c.lookup k).isSome with
  | false =>
    simp only [hs, Bool.false_eq_true, if_false]
    exact lookup_append_right_of_none c k v (Option.not_isSome_iff_eq_none.mp (by simp [hs]))
  | true =>
    simp only [hs, if_true]
    exact lookup_map_overwrite c k v hs

theorem lookup_perm {β : Type} {l₁ l₂ : List (String × β)} (h : l₁.Perm l₂)
    (hn : (l₁.map Prod.fst).Nodup) (k : String) : l₁.lookup k = l₂.lookup k := by
  induction h with
  | nil => rfl
  | cons x h ih =>
    obtain ⟨a, b⟩ := x
    simp only [List.map_cons, List.nodup_cons] at hn
    cases hx : k == a <;> simp [List.lookup, hx, ih hn.2]
  | swap x y l =>
    obtain ⟨a₁, b₁⟩ := x
    obtain ⟨a₂, b₂⟩ := y
    simp only [List.map_cons, List.nodup_cons, List.mem_cons] at hn
    cases h1 : k == a₁ <;> cases h2 : k == a₂ <;>
      simp [List.lookup, h1, h2]
    exact absurd (beq_iff_eq.mp h2 ▸ beq_iff_eq.mp h1 : a₂ = a₁)
      (fun e => hn.1 (Or.inl e))
  | trans h₁ h₂ ih₁ ih₂ =>
    exact (ih₁ hn).trans (ih₂ ((h₁.map Prod.fst).nodup hn))

/-! ## Substring lemmas -/

theorem chStarts_append_self : ∀ k y : List Char, chStarts (k ++ y) k = true
  | [], y => by cases y <;> rfl
  | c :: k', y => by simp [chStarts, chStarts_append_self k' y]

theorem chHasSub_of_starts {l sub : List Char} (h : chStarts l sub = true) :
    chHasSub l sub = true := by
  unfold chHasSub
  simp [h]

theorem chHasSub_append_right : ∀ (x t sub : List Char),
    chHasSub t sub = true → chHasSub (x ++ t) sub = true
  | [], _, _, h => h
  | c :: x', t, sub, h => by
    unfold chHasSub
    simp [chHasSub_append_right x' t sub h]

theorem hasSubstr_sandwich (x k y : String) : hasSubstr (x ++ (k ++ y)) k = true := by
  unfold hasSubstr
  show chHasSub (x ++ (k ++ y)).data k.data = true
  have : (x ++ (k ++ y)).data = x.data ++ (k.data ++ y.data) := rfl
  rw [this]
  exact chHasSub_append_right _ _ _ (chHasSub_of_starts (chStarts_append_self _ _))

theorem hasSubstr_append_right (s t sub : String) (h : hasSubstr t sub = true) :
    hasSubstr (s ++ t) sub = true := by
  unfold hasSubstr at h ⊢
  have : (s ++ t).data = s.data ++ t.data := rfl
  rw [this]
  exact chHasSub_append_right _ _ _ h

/-! ## Retry-loop lemmas -/

theorem retryLoop_ne_fellThrough {α : Type} (stage : String) (call : Nat → Except String α)
    (maxR : Nat) : ∀ rem att, att + rem = maxR + 1 → 1 ≤ rem →
    (retryLoop stage call maxR rem att).1 ≠ RetryOutcome.fellThrough := by
  intro rem
  induction rem with
  | zero => intro att _ h1; omega
  | succ n ih =>
    intro att hsum _
    unfold retryLoop
    cases hc : call att with
    | ok r => simp
    | error e =>
      by_cases hm : att = maxR
      · simp [hm]
      · simp only [if_neg hm]
        exact ih (att + 1) (by omega) (by omega)

theorem retryLoop_ok {α : Type} (stage : String) (call : Nat → Except String α)
    (maxR k : Nat) (r : α) (hk : k ≤ maxR) (hok : call k = .ok r) :
    ∀ rem att, att + rem = maxR + 1 → att ≤ k →
    (∀ i, att ≤ i → i < k → ∃ e, call i = .error e) →
    (retryLoop stage call maxR rem att).1 = .ok r := by
  intro rem
  induction rem with
  | zero => intro att hsum hak _; omega
  | succ n ih =>
    intro att hsum hak hfail
    unfold retryLoop
    by_cases hek : att = k
    · subst hek
      rw [hok]
    · obtain ⟨e, he⟩ := hfail att le_rfl (by omega)
      rw [he]
      have hm : att ≠ maxR := by omega
      simp only [if_neg hm]
      exact ih (att + 1) (by omega) (by omega) (fun i h1 h2 => hfail i (by omega) h2)

theorem retryLoop_exhaust {α : Type} (stage : String) (call : Nat → Except String α)
    (maxR : Nat) (elast : String) (hlast : call maxR = .error elast) :
    ∀ rem att, att + rem = maxR + 1 → 1 ≤ rem →
    (∀ i, att ≤ i → i ≤ maxR → ∃ e, call i = .error e) →
    (retryLoop stage call maxR rem att).1 = .exhausted elast ∧
      ("[" ++ stage ++ "] All attempts failed") ∈ (retryLoop stage call maxR rem att).2.1 := by
  intro rem
  induction rem with
  | zero => intro att _ h1; omega
  | succ n ih =>
    intro att hsum _ hfail
    by_cases hm : att = maxR
    · subst hm
      unfold retryLoop
      rw [hlast]
      simp
    · obtain ⟨e, he⟩ := hfail att le_rfl (by omega)
      unfold retryLoop
      rw [he]
      simp only [if_neg hm]
      have hr := ih (att + 1) (by omega) (by omega) (fun i h1 h2 => hfail i (by omega) h2)
      refine ⟨hr.1, ?_⟩
      simp only [List.mem_cons]
      exact Or.inr (Or.inr (Or.inr hr.2))

/-! ## Validation and formatting equivalence lemmas -/

theorem checkEntries_strDict (m : List (String × String)) :
    checkEntries (strDict m) =
      .ok (match m.find? (fun kv => strIsBlank kv.2) with
        | some kv => (false, some ("Entry " ++ squo ++ kv.1 ++ squo ++ " is empty"))
        | none => (true, none)) := by
  induction m with
  | nil => rfl
  | cons kv rest ih =>
    obtain ⟨k, v⟩ := kv
    show checkEntries ((k, PyVal.str v) :: strDict rest) = _
    unfold checkEntries entryEmpty
    cases hb : strIsBlank v
    · simp only [List.find?_cons, hb]
      exact ih
    · simp only [List.find?_cons, hb]

theorem validateFlat_strDict (m : List (String × String)) :
    validateFlat (strDict m) = .ok (validate_ref m) := by
  unfold validateFlat validate_ref
  cases m with
  | nil => rfl
  | cons kv rest =>
    obtain ⟨k, v⟩ := kv
    have hany : ∀ sub : String,
        ((rest.map fun kv => (kv.1, PyVal.str kv.2)).any
            fun kv => hasSubstr (lowerStr kv.1) sub) =
          rest.any (fun kv => hasSubstr (lowerStr kv.1) sub) := by
      intro sub
      induction rest with
      | nil => rfl
      | cons x t iht => simp only [List.map_cons, List.any_cons, iht]
    simp only [strDict, List.map_cons, List.isEmpty_cons, List.length_cons,
      List.length_map, List.any_cons, hany]
    norm_num
    split_ifs <;>
      first
        | rfl
        | simpa [strDict] using checkEntries_strDict ((k, v) :: rest)

theorem validate_strDict (m : List (String × String)) (hm : m.lookup "transcript" = none) :
    validate_transcript (strDict m) = .ok (validate_ref m) := by
  unfold validate_transcript
  rw [lookup_strDict, hm]
  exact validateFlat_strDict m

theorem validate_wrapped (outer : List (String × PyVal)) (m : List (String × String))
    (ho : outer.lookup "transcript" = some (.obj m)) :
    validate_transcript outer = .ok (validate_ref m) := by
  unfold validate_transcript
  rw [ho]
  exact validateFlat_strDict m

theorem sortedKeys_perm {d₁ d₂ : List (String × PyVal)} (hp : d₁.Perm d₂) :
    sortedKeys d₁ = sortedKeys d₂ := by
  unfold sortedKeys
  exact List.eq_of_perm_of_sorted
    ((List.perm_insertionSort keyRel _).trans
      ((hp.map Prod.fst).trans (List.perm_insertionSort keyRel _).symm))
    (List.sorted_insertionSort keyRel _)
    (List.sorted_insertionSort keyRel _)

theorem formatFlatPV_perm {d₁ d₂ : List (String × PyVal)}
    (hn : (d₁.map Prod.fst).Nodup) (hp : d₁.Perm d₂) :
    formatFlatPV d₁ = formatFlatPV d₂ := by
  unfold formatFlatPV
  rw [sortedKeys_perm hp]
  congr 1
  apply List.map_congr_left
  intro k _
  rw [lookup_perm hp hn k]

theorem strDict_keys (m : List (String × String)) :
    (strDict m).map Prod.fst = m.map Prod.fst := by
  simp [strDict, List.map_map, Function.comp]

theorem format_strDict_perm (m₁ m₂ : List (String × String))
    (hn : (m₁.map Prod.fst).Nodup) (hp : m₁.Perm m₂) :
    format_transcript (strDict m₁) = format_transcript (strDict m₂) := by
  have hpd : (strDict m₁).Perm (strDict m₂) := hp.map _
  have hnd : ((strDict m₁).map Prod.fst).Nodup := by
    rw [strDict_keys]; exact hn
  unfold format_transcript
  rw [lookup_perm hpd hnd "transcript"]
  cases h2 : (strDict m₂).lookup "transcript" with
  | none =>
    simp only []
    rw [formatFlatPV_perm hnd hpd]
  | some v =>
    cases v <;> rfl

theorem roleLabel_rank (k : String) :
    roleLabel k = (if (sort_key k).1 = 0 then "Interviewer" else "Candidate") := by
  unfold roleLabel sort_key
  split_ifs <;> simp_all

theorem format_transcript_ref (m : List (String × String))
    (hm : m.lookup "transcript" = none) :
    format_transcript (strDict m) = .ok (format_ref m) := by
  unfold format_transcript
  rw [lookup_strDict, hm]
  show Except.ok (formatFlatPV (strDict m)) = _
  unfold formatFlatPV format_ref sortedKeys
  rw [strDict_keys]
  congr 2
  apply List.map_congr_left
  intro k _
  rw [roleLabel_rank, lookup_strDict]
  cases m.lookup k <;> rfl

/-! ## Good-shape lemmas: on well-typed payloads validation and formatting
never raise -/

theorem strDict_all_str (m : List (String × String)) :
    ((strDict m).all fun kv => isStrVal kv.2) = true := by
  induction m with
  | nil => rfl
  | cons kv rest ih => simpa [strDict, isStrVal] using ih

theorem checkEntries_cons_str (k s : String) (rest : List (String × PyVal)) :
    checkEntries ((k, PyVal.str s) :: rest) =
      (if strIsBlank s then .ok (false, some ("Entry " ++ squo ++ k ++ squo ++ " is empty"))
       else checkEntries rest) := by
  show (match (Except.ok (strIsBlank s) : Except String Bool) with
      | .error e => (.error e : Except String (Bool × Option String))
      | .ok true => .ok (false, some ("Entry " ++ squo ++ k ++ squo ++ " is empty"))
      | .ok false => checkEntries rest) = _
  cases strIsBlank s <;> rfl

theorem checkEntries_all_str (t : List (String × PyVal))
    (ht : (t.all fun kv => isStrVal kv.2) = true) :
    ∃ res, checkEntries t = .ok res ∧ (res.1 = false → ∃ msg, res.2 = some msg) := by
  induction t with
  | nil => exact ⟨(true, none), rfl, by simp⟩
  | cons kv rest ih =>
    obtain ⟨k, v⟩ := kv
    simp only [List.all_cons, Bool.and_eq_true] at ht
    cases v with
    | obj d => simp [isStrVal] at ht
    | str s =>
      rw [checkEntries_cons_str]
      cases hb : strIsBlank s
      · exact ih ht.2
      · exact ⟨_, rfl, fun _ => ⟨_, rfl⟩⟩

theorem validateFlat_all_str (t : List (String × PyVal))
    (ht : (t.all fun kv => isStrVal kv.2) = true) :
    ∃ res, validateFlat t = .ok res ∧ (res.1 = false → ∃ msg, res.2 = some msg) := by
  unfold validateFlat
  by_cases h1 : t.isEmpty
  · exact ⟨_, by rw [if_pos h1], fun _ => ⟨_, rfl⟩⟩
  · rw [if_neg h1]
    by_cases h2 : t.length < 2
    · exact ⟨_, by rw [if_pos h2], fun _ => ⟨_, rfl⟩⟩
    · rw [if_neg h2]
      by_cases h3 : (!(t.any fun kv => hasSubstr (lowerStr kv.1) "interviewer")) = true
      · exact ⟨_, by rw [if_pos h3], fun _ => ⟨_, rfl⟩⟩
      · rw [if_neg h3]
        by_cases h4 : (!(t.any fun kv => hasSubstr (lowerStr kv.1) "candidate")) = true
        · exact ⟨_, by rw [if_pos h4], fun _ => ⟨_, rfl⟩⟩
        · rw [if_neg h4]
          exact checkEntries_all_str t ht

theorem validate_goodShape (t : List (String × PyVal)) (hs : goodShapeB t = true) :
    ∃ res, validate_transcript t = .ok res ∧ (res.1 = false → ∃ msg, res.2 = some msg) := by
  unfold goodShapeB at hs
  unfold validate_transcript
  cases hl : t.lookup "transcript" with
  | none =>
    rw [hl] at hs
    exact validateFlat_all_str t hs
  | some v =>
    rw [hl] at hs
    cases v with
    | str s => simp at hs
    | obj inner => exact validateFlat_all_str (strDict inner) (strDict_all_str inner)

theorem format_goodShape (t : List (String × PyVal)) (hs : goodShapeB t = true) :
    ∃ fmt, format_transcript t = .ok fmt := by
  unfold goodShapeB at hs
  unfold format_transcript
  cases hl : t.lookup "transcript" with
  | none => exact ⟨_, rfl⟩
  | some v =>
    rw [hl] at hs
    cases v with
    | str s => simp at hs
    | obj inner => exact ⟨_, rfl⟩

/-! ## Equation lemmas for `runStages` and `analyze` -/

theorem invoke_ne_fellThrough {α : Type} (stage : String) (call : Nat → Except String α)
    (maxR : Nat) (hm : 1 ≤ maxR) :
    (invoke_with_retry stage call maxR).1 ≠ RetryOutcome.fellThrough :=
  retryLoop_ne_fellThrough stage call maxR maxR 1 (by omega) hm

theorem runStages_eq_hit (p : Pipeline) (env : Env) (fmt : String) (uc : Bool)
    (r : FinalReport)
    (h : (if (uc && p.enable_cache) = true then p.cache.lookup (md5_hex fmt) else none)
      = some r) :
    runStages p env fmt uc = ⟨.report r, p.cache, 0, 0, true⟩ := by
  simp only [runStages]
  rw [h]

theorem runStages_eq_s1exh (p : Pipeline) (env : Env) (fmt : String) (uc : Bool) (e : String)
    (h : (if (uc && p.enable_cache) = true then p.cache.lookup (md5_hex fmt) else none) = none)
    (h1 : (invoke_with_retry "Analyst" (env.analyst fmt) p.max_retries).1 = .exhausted e) :
    runStages p env fmt uc =
      ⟨.pyExc e, p.cache, 1,
        (invoke_with_retry "Analyst" (env.analyst fmt) p.max_retries).2.2, false⟩ := by
  simp only [runStages]
  rw [h, h1]

theorem runStages_eq_s1fell (p : Pipeline) (env : Env) (fmt : String) (uc : Bool)
    (h : (if (uc && p.enable_cache) = true then p.cache.lookup (md5_hex fmt) else none) = none)
    (h1 : (invoke_with_retry "Analyst" (env.analyst fmt) p.max_retries).1 = .fellThrough) :
    runStages p env fmt uc =
      ⟨.pyExc attrErrSnippets, p.cache, 1,
        (invoke_with_retry "Analyst" (env.analyst fmt) p.max_retries).2.2, false⟩ := by
  simp only [runStages]
  rw [h, h1]

theorem runStages_eq_s2exh (p : Pipeline) (env : Env) (fmt : String) (uc : Bool)
    (ar : AnalysisReport) (e : String)
    (h : (if (uc && p.enable_cache) = true then p.cache.lookup (md5_hex fmt) else none) = none)
    (h1 : (invoke_with_retry "Analyst" (env.analyst fmt) p.max_retries).1 = .ok ar)
    (h2 : (invoke_with_retry "Synthesis" (env.synthesis ar) p.max_retries).1 = .exhausted e) :
    runStages p env fmt uc =
      ⟨.pyExc e, p.cache, 2,
        (invoke_with_retry "Analyst" (env.analyst fmt) p.max_retries).2.2 +
          (invoke_with_retry "Synthesis" (env.synthesis ar) p.max_retries).2.2, false⟩ := by
  simp only [runStages]
  rw [h, h1]
  simp only []
  rw [h2]

theorem runStages_eq_s2fell (p : Pipeline) (env : Env) (fmt : String) (uc : Bool)
    (ar : AnalysisReport)
    (h : (if (uc && p.enable_cache) = true then p.cache.lookup (md5_hex fmt) else none) = none)
    (h1 : (invoke_with_retry "Analyst" (env.analyst fmt) p.max_retries).1 = .ok ar)
    (h2 : (invoke_with_retry "Synthesis" (env.synthesis ar) p.max_retries).1 = .fellThrough) :
    runStages p env fmt uc =
      ⟨.pyExc attrErrSummary, p.cache, 2,
        (invoke_with_retry "Analyst" (env.analyst fmt) p.max_retries).2.2 +
          (invoke_with_retry "Synthesis" (env.synthesis ar) p.max_retries).2.2, false⟩ := by
  simp only [runStages]
  rw [h, h1]
  simp only []
  rw [h2]

theorem runStages_eq_success (p : Pipeline) (env : Env) (fmt : String) (uc : Bool)
    (ar : AnalysisReport) (fr : FinalReport)
    (h : (if (uc && p.enable_cache) = true then p.cache.lookup (md5_hex fmt) else none) = none)
    (h1 : (invoke_with_retry "Analyst" (env.analyst fmt) p.max_retries).1 = .ok ar)
    (h2 : (invoke_with_retry "Synthesis" (env.synthesis ar) p.max_retries).1 = .ok fr) :
    runStages p env fmt uc =
      ⟨.report fr,
        (if (uc && p.enable_cache) = true then dictInsert p.cache (md5_hex fmt) fr
         else p.cache), 2,
        (invoke_with_retry "Analyst" (env.analyst fmt) p.max_retries).2.2 +
          (invoke_with_retry "Synthesis" (env.synthesis ar) p.max_retries).2.2, false⟩ := by
  simp only [runStages]
  rw [h, h1]
  simp only []
  rw [h2]

theorem analyze_eq_vraise (p : Pipeline) (env : Env) (t : List (String × PyVal))
    (vi vo uc : Bool) (e : String)
    (h : (if vi then validate_transcript t else .ok (true, none)) = .error e) :
    analyze p env t vi vo uc = ⟨.pyExc e, p.cache, 0, 0, false⟩ := by
  simp only [analyze]
  rw [h]

theorem analyze_eq_invalid (p : Pipeline) (env : Env) (t : List (String × PyVal))
    (vi vo uc : Bool) (msg : Option String)
    (h : (if vi then validate_transcript t else .ok (true, none)) = .ok (false, msg)) :
    analyze p env t vi vo uc =
      ⟨.valError ("Invalid transcript: " ++ optStr msg), p.cache, 0, 0, false⟩ := by
  simp only [analyze]
  rw [h]

theorem analyze_eq_fmtraise (p : Pipeline) (env : Env) (t : List (String × PyVal))
    (vi vo uc : Bool) (msg : Option String) (e : String)
    (h : (if vi then validate_transcript t else .ok (true, none)) = .ok (true, msg))
    (hf : format_transcript t = .error e) :
    analyze p env t vi vo uc = ⟨.pyExc e, p.cache, 0, 0, false⟩ := by
  simp only [analyze]
  rw [h, hf]

theorem analyze_eq_run (p : Pipeline) (env : Env) (t : List (String × PyVal))
    (vi vo uc : Bool) (msg : Option String) (fmt : String)
    (h : (if vi then validate_transcript t else .ok (true, none)) = .ok (true, msg))
    (hf : format_transcript t = .ok fmt) :
    analyze p env t vi vo uc = runStages p env fmt uc := by
  simp only [analyze]
  rw [h, hf]

/-! ## `runStages` characterizations -/

theorem runStages_hit (p : Pipeline) (env : Env) (fmt : String) (r : FinalReport)
    (hc : p.enable_cache = true) (hl : p.cache.lookup (md5_hex fmt) = some r) :
    runStages p env fmt true = ⟨.report r, p.cache, 0, 0, true⟩ :=
  runStages_eq_hit p env fmt true r (by rw [hc]; simpa using hl)

theorem runStages_no_valError (p : Pipeline) (env : Env) (fmt : String) (uc : Bool) :
    ∀ m, (runStages p env fmt uc).result ≠ .valError m := by
  intro m
  cases hl : (if (uc && p.enable_cache) = true then p.cache.lookup (md5_hex fmt) else none) with
  | some r => rw [runStages_eq_hit p env fmt uc r hl]; simp
  | none =>
    cases hs1 : (invoke_with_retry "Analyst" (env.analyst fmt) p.max_retries).1 with
    | exhausted e => rw [runStages_eq_s1exh p env fmt uc e hl hs1]; simp
    | fellThrough => rw [runStages_eq_s1fell p env fmt uc hl hs1]; simp
    | ok ar =>
      cases hs2 : (invoke_with_retry "Synthesis" (env.synthesis ar) p.max_retries).1 with
      | exhausted e => rw [runStages_eq_s2exh p env fmt uc ar e hl hs1 hs2]; simp
      | fellThrough => rw [runStages_eq_s2fell p env fmt uc ar hl hs1 hs2]; simp
      | ok fr => rw [runStages_eq_success p env fmt uc ar fr hl hs1 hs2]; simp

theorem runStages_total (p : Pipeline) (env : Env) (fmt : String) (uc : Bool) :
    (∃ r, (runStages p env fmt uc).result = .report r) ∨
      (∃ e, (runStages p env fmt uc).result = .pyExc e) := by
  cases hl : (if (uc && p.enable_cache) = true then p.cache.lookup (md5_hex fmt) else none) with
  | some r => rw [runStages_eq_hit p env fmt uc r hl]; exact Or.inl ⟨r, rfl⟩
  | none =>
    cases hs1 : (invoke_with_retry "Analyst" (env.analyst fmt) p.max_retries).1 with
    | exhausted e => rw [runStages_eq_s1exh p env fmt uc e hl hs1]; exact Or.inr ⟨e, rfl⟩
    | fellThrough => rw [runStages_eq_s1fell p env fmt uc hl hs1]; exact Or.inr ⟨_, rfl⟩
    | ok ar =>
      cases hs2 : (invoke_with_retry "Synthesis" (env.synthesis ar) p.max_retries).1 with
      | exhausted e => rw [runStages_eq_s2exh p env fmt uc ar e hl hs1 hs2]; exact Or.inr ⟨e, rfl⟩
      | fellThrough => rw [runStages_eq_s2fell p env fmt uc ar hl hs1 hs2]; exact Or.inr ⟨_, rfl⟩
      | ok fr => rw [runStages_eq_success p env fmt uc ar fr hl hs1 hs2]; exact Or.inl ⟨fr, rfl⟩

theorem runStages_success_caches (p : Pipeline) (env : Env) (fmt : String) (r : FinalReport)
    (hc : p.enable_cache = true)
    (h1 : (runStages p env fmt true).result = .report r) :
    (runStages p env fmt true).cache.lookup (md5_hex fmt) = some r := by
  cases hl : (if (true && p.enable_cache) = true then p.cache.lookup (md5_hex fmt) else none) with
  | some r0 =>
    rw [runStages_eq_hit p env fmt true r0 hl] at h1 ⊢
    have : r0 = r := by simpa using h1
    subst this
    have := hl
    rw [hc] at this
    simpa using this
  | none =>
    cases hs1 : (invoke_with_retry "Analyst" (env.analyst fmt) p.max_retries).1 with
    | exhausted e => rw [runStages_eq_s1exh p env fmt true e hl hs1] at h1; simp at h1
    | fellThrough => rw [runStages_eq_s1fell p env fmt true hl hs1] at h1; simp at h1
    | ok ar =>
      cases hs2 : (invoke_with_retry "Synthesis" (env.synthesis ar) p.max_retries).1 with
      | exhausted e => rw [runStages_eq_s2exh p env fmt true ar e hl hs1 hs2] at h1; simp at h1
      | fellThrough => rw [runStages_eq_s2fell p env fmt true ar hl hs1 hs2] at h1; simp at h1
      | ok fr =>
        rw [runStages_eq_success p env fmt true ar fr hl hs1 hs2] at h1 ⊢
        have : fr = r := by simpa using h1
        subst this
        simp only [hc, Bool.and_true, if_pos]
        exact lookup_dictInsert_self p.cache (md5_hex fmt) fr

theorem runStages_pyExc_iff (p : Pipeline) (env : Env) (fmt : String) (uc : Bool)
    (hmr : 1 ≤ p.max_retries) (e : String) :
    (runStages p env fmt uc).result = .pyExc e ↔
      ((if (uc && p.enable_cache) = true then p.cache.lookup (md5_hex fmt) else none) = none ∧
        ((invoke_with_retry "Analyst" (env.analyst fmt) p.max_retries).1 = .exhausted e ∨
          ∃ ar, (invoke_with_retry "Analyst" (env.analyst fmt) p.max_retries).1 = .ok ar ∧
            (invoke_with_retry "Synthesis" (env.synthesis ar) p.max_retries).1 = .exhausted e)) := by
  cases hl : (if (uc && p.enable_cache) = true then p.cache.lookup (md5_hex fmt) else none) with
  | some r => rw [runStages_eq_hit p env fmt uc r hl]; simp
  | none =>
    cases hs1 : (invoke_with_retry "Analyst" (env.analyst fmt) p.max_retries).1 with
    | fellThrough => exact absurd hs1 (invoke_ne_fellThrough _ _ _ hmr)
    | exhausted e1 =>
      rw [runStages_eq_s1exh p env fmt uc e1 hl hs1]
      simp
    | ok ar =>
      cases hs2 : (invoke_with_retry "Synthesis" (env.synthesis ar) p.max_retries).1 with
      | fellThrough => exact absurd hs2 (invoke_ne_fellThrough _ _ _ hmr)
      | exhausted e2 =>
        rw [runStages_eq_s2exh p env fmt uc ar e2 hl hs1 hs2]
        simp [hs2]
      | ok fr =>
        rw [runStages_eq_success p env fmt uc ar fr hl hs1 hs2]
        simp [hs2]

/-! ## Message-containment helper -/

theorem quoted_msg_has_key (x k y : String) :
    hasSubstr (x ++ squo ++ k ++ squo ++ y) k = true := by
  show chHasSub ((((x.data ++ squo.data) ++ k.data) ++ squo.data) ++ y.data) k.data = true
  rw [List.append_assoc, List.append_assoc, List.append_assoc]
  exact chHasSub_append_right _ _ _
    (chHasSub_append_right _ _ _ (chHasSub_of_starts (chStarts_append_self _ _)))

/-! ## Claim theorems -/

/-- C4: `validate_transcript` decides success/failure by ordered,
short-circuiting checks on the (possibly unwrapped) transcript mapping: an
empty mapping fails mentioning emptiness; fewer than 2 entries fails
mentioning the minimum-exchange requirement; no interviewer key fails
mentioning interviewer, then symmetrically for candidate; an entry with
empty or all-whitespace text fails naming that key; otherwise success with
no message.  Stated as a refinement against `validate_ref` (the cascade
written from the specification) plus the per-branch message guarantees. -/
theorem validate_transcript_ordered_checks :
    (∀ m : List (String × String), m.lookup "transcript" = none →
        validate_transcript (strDict m) = .ok (validate_ref m)) ∧
    (∀ (outer : List (String × PyVal)) (m : List (String × String)),
        outer.lookup "transcript" = some (.obj m) →
        validate_transcript outer = .ok (validate_ref m)) ∧
    (∀ m : List (String × String), m.length = 0 →
        validate_ref m = (false, some "Transcript cannot be empty")) ∧
    hasSubstr "Transcript cannot be empty" "empty" = true ∧
    (∀ m : List (String × String), m ≠ [] → m.length < 2 →
        validate_ref m = (false, some "Transcript must have at least 2 exchanges")) ∧
    hasSubstr "Transcript must have at least 2 exchanges" "at least 2 exchanges" = true ∧
    (∀ m : List (String × String), 2 ≤ m.length →
        (m.any fun kv => hasSubstr (lowerStr kv.1) "interviewer") = false →
        validate_ref m = (false, some "Transcript must include interviewer questions")) ∧
    hasSubstr "Transcript must include interviewer questions" "interviewer" = true ∧
    (∀ m : List (String × String), 2 ≤ m.length →
        (m.any fun kv => hasSubstr (lowerStr kv.1) "interviewer") = true →
        (m.any fun kv => hasSubstr (lowerStr kv.1) "candidate") = false →
        validate_ref m = (false, some "Transcript must include candidate responses")) ∧
    hasSubstr "Transcript must include candidate responses" "candidate" = true ∧
    (∀ (m : List (String × String)) (k v : String), 2 ≤ m.length →
        (m.any fun kv => hasSubstr (lowerStr kv.1) "interviewer") = true →
        (m.any fun kv => hasSubstr (lowerStr kv.1) "candidate") = true →
        m.find? (fun kv => strIsBlank kv.2) = some (k, v) →
        validate_ref m = (false, some ("Entry " ++ squo ++ k ++ squo ++ " is empty")) ∧
          hasSubstr ("Entry " ++ squo ++ k ++ squo ++ " is empty") k = true) ∧
    (∀ m : List (String × String), 2 ≤ m.length →
        (m.any fun kv => hasSubstr (lowerStr kv.1) "interviewer") = true →
        (m.any fun kv => hasSubstr (lowerStr kv.1) "candidate") = true →
        m.find? (fun kv => strIsBlank kv.2) = none →
        validate_ref m = (true, none)) := by
  refine ⟨validate_strDict, validate_wrapped, ?_, by decide, ?_, by decide, ?_, by decide,
    ?_, by decide, ?_, ?_⟩
  · intro m h
    unfold validate_ref
    rw [if_pos h]
  · intro m hne h2
    unfold validate_ref
    rw [if_neg (fun h0 => hne (List.length_eq_zero.mp h0)), if_pos h2]
  · intro m h2 hi
    unfold validate_ref
    rw [if_neg (by omega), if_neg (by omega), if_pos (by simp [hi])]
  · intro m h2 hi hc
    unfold validate_ref
    rw [if_neg (by omega), if_neg (by omega), if_neg (by simp [hi]), if_pos (by simp [hc])]
  · intro m k v h2 hi hc hf
    unfold validate_ref
    rw [if_neg (by omega), if_neg (by omega), if_neg (by simp [hi]), if_neg (by simp [hc]), hf]
    exact ⟨rfl, quoted_msg_has_key "Entry " k " is empty"⟩
  · intro m h2 hi hc hf
    unfold validate_ref
    rw [if_neg (by omega), if_neg (by omega), if_neg (by simp [hi]), if_neg (by simp [hc]), hf]

/-- Witness for C4 at concrete transcripts: a valid two-exchange transcript
passes, and the empty transcript fails with the emptiness message. -/
theorem validate_transcript_ordered_checks_witness :
    validate_transcript (strDict [("interviewer", "q"), ("candidate", "a")]) = .ok (true, none) ∧
    validate_transcript (strDict []) = .ok (false, some "Transcript cannot be empty") := by
  constructor
  · rw [validate_transcript_ordered_checks.1 [("interviewer", "q"), ("candidate", "a")] rfl]
    decide
  · rw [validate_transcript_ordered_checks.1 [] rfl]
    decide

/-- C5 (amended): `format_transcript` equals the reference rendering
(lines `"Role: text"` ordered by `(role-rank, key-literal)`, joined by
blank lines); the rendering depends only on the key-to-value content and
not on input field order; on flat mappings without a literal `transcript`
key the normalizer never fails — in particular the empty mapping renders
as the empty string; on the four-entry example each interviewer line
comes strictly before the matching candidate line.  (Totality does not
hold unrestricted: see the counterexample below.) -/
theorem format_transcript_rendering :
    (∀ m : List (String × String), m.lookup "transcript" = none →
        format_transcript (strDict m) = .ok (format_ref m)) ∧
    (∀ m₁ m₂ : List (String × String), (m₁.map Prod.fst).Nodup → m₁.Perm m₂ →
        format_transcript (strDict m₁) = format_transcript (strDict m₂)) ∧
    format_transcript [] = .ok "" ∧
    format_transcript (strDict exOrder) =
      .ok "Interviewer: question\n\nInterviewer: question 2\n\nCandidate: answer\n\nCandidate: answer 2" ∧
    strBefore (formatFlat exOrder) "Interviewer: question" "Candidate: answer" = true ∧
    strBefore (formatFlat exOrder) "Interviewer: question 2" "Candidate: answer 2" = true :=
  ⟨format_transcript_ref, format_strDict_perm, by decide, by decide, by decide, by decide⟩

/-- Witness for C5: a concrete permutation pair renders identically, and
the reference rendering agrees on the example transcript. -/
theorem format_transcript_rendering_witness :
    format_transcript (strDict [("candidate", "a"), ("interviewer", "q")]) =
      format_transcript (strDict [("interviewer", "q"), ("candidate", "a")]) ∧
    format_transcript (strDict exOrder) = .ok (format_ref exOrder) := by
  constructor
  · exact format_transcript_rendering.2.1 _ _ (by decide) (by decide)
  · exact format_transcript_rendering.1 exOrder rfl

/-- Counterexample to C5 as stated: the normalizer is not total.  On the
flat string-valued mapping `mBad`, which itself contains a literal
`transcript` key, `format_transcript` raises an `AttributeError` (the
string found under `transcript` has no `.keys()`) instead of rendering. -/
theorem format_transcript_rendering_cex :
    format_transcript (strDict mBad) = .error attrErrKeys := by decide

/-- C10: every key not containing "interviewer" (case-insensitive) renders
with the role label "Candidate", including keys matching neither role
pattern; such keys get sort rank 2 and sort strictly after every
candidate-role key, but still read `Candidate: ...` in the output. -/
theorem format_role_fallback :
    (∀ k : String, hasSubstr (lowerStr k) "interviewer" = false →
        roleLabel k = "Candidate") ∧
    (∀ k : String, hasSubstr (lowerStr k) "interviewer" = false →
        hasSubstr (lowerStr k) "candidate" = false → sort_key k = (2, k)) ∧
    (∀ k₁ k₂ : String, hasSubstr (lowerStr k₁) "interviewer" = false →
        hasSubstr (lowerStr k₁) "candidate" = true →
        hasSubstr (lowerStr k₂) "interviewer" = false →
        hasSubstr (lowerStr k₂) "candidate" = false →
        keyRel k₁ k₂ ∧ ¬ keyRel k₂ k₁) ∧
    formatFlat [("interviewer", "q"), ("candidate", "a"), ("notes", "n")] =
      "Interviewer: q\n\nCandidate: a\n\nCandidate: n" := by
  refine ⟨?_, ?_, ?_, by decide⟩
  · intro k h
    unfold roleLabel
    rw [if_neg (by simp [h])]
  · intro k h1 h2
    unfold sort_key
    rw [if_neg (by simp [h1]), if_neg (by simp [h2])]
  · intro k₁ k₂ h1 h2 h3 h4
    have s1 : sort_key k₁ = (1, k₁) := by
      unfold sort_key
      rw [if_neg (by simp [h1]), if_pos h2]
    have s2 : sort_key k₂ = (2, k₂) := by
      unfold sort_key
      rw [if_neg (by simp [h3]), if_neg (by simp [h4])]
    constructor
    · rw [keyRel_iff, s1, s2]
      exact Or.inl (by omega)
    · rw [keyRel_iff, s1, s2]
      rintro (h | ⟨h, -⟩) <;> omega

/-- Witness for C10 at the key "notes": labelled Candidate, rank 2, sorted
after the candidate key. -/
theorem format_role_fallback_witness :
    roleLabel "notes" = "Candidate" ∧ sort_key "notes" = (2, "notes") ∧
    keyRel "candidate" "notes" := by
  refine ⟨format_role_fallback.1 "notes" (by decide),
    format_role_fallback.2.1 "notes" (by decide) (by decide),
    (format_role_fallback.2.2.1 "candidate" "notes" (by decide) (by decide) (by decide)
      (by decide)).1⟩

/-- C7: `validate_report_quality` is pure and returns `(passed, issues)`
with `passed` true iff `issues` is empty; `issues` holds exactly one entry
per violated check (refinement against `quality_ref`); an empty strengths
sequence yields an issue naming strengths; a resource with a non-http(s)
link yields an issue naming that resource topic; a fully well-formed
report yields `(true, [])`. -/
theorem validate_report_quality_spec :
    (∀ r : FinalReport,
        validate_report_quality r = ((quality_ref r).isEmpty, quality_ref r)) ∧
    (∀ r : FinalReport,
        ((validate_report_quality r).1 = true ↔ (validate_report_quality r).2 = [])) ∧
    (∀ r : FinalReport, r.insights.strengths = [] →
        "No strengths identified" ∈ (validate_report_quality r).2) ∧
    hasSubstr "No strengths identified" "strengths" = true ∧
    (∀ (r : FinalReport) (res : RecommendedResource),
        res ∈ r.development_plan.recommended_resources →
        strIsBlank res.link = false →
        (strStarts res.link "http://" || strStarts res.link "https://") = false →
        ("Resource " ++ squo ++ res.topic ++ squo ++ " has invalid link format")
            ∈ (validate_report_quality r).2 ∧
          hasSubstr ("Resource " ++ squo ++ res.topic ++ squo ++ " has invalid link format")
            res.topic = true) ∧
    (∀ r : FinalReport, wellFormedReport r → validate_report_quality r = (true, [])) := by
  refine ⟨?_, ?_, ?_, by decide, ?_, ?_⟩
  · intro r
    unfold validate_report_quality quality_ref
    simp only [Nat.not_le]
  · intro r
    unfold validate_report_quality
    simp [List.isEmpty_iff]
  · intro r h
    unfold validate_report_quality
    simp [h]
  · intro r res hres hblank hlink
    have hri : resourceIssues res =
        ["Resource " ++ squo ++ res.topic ++ squo ++ " has invalid link format"] := by
      unfold resourceIssues
      rw [if_neg (by simp [hblank]), if_pos (by simp [hlink])]
    constructor
    · have hmem : ("Resource " ++ squo ++ res.topic ++ squo ++ " has invalid link format") ∈
          r.development_plan.recommended_resources.flatMap resourceIssues :=
        List.mem_flatMap.mpr ⟨res, hres, by rw [hri]; exact List.mem_singleton.mpr rfl⟩
      unfold validate_report_quality
      simp only [List.mem_append]
      tauto
    · exact quoted_msg_has_key "Resource " res.topic " has invalid link format"
  · intro r h
    obtain ⟨h1, h2, h3, h4, h5, h6, h7, h8⟩ := h
    have hfm : r.development_plan.recommended_resources.flatMap resourceIssues = [] := by
      apply List.flatMap_eq_nil_iff.mpr
      intro res hres
      obtain ⟨hb, hs⟩ := h8 res hres
      unfold resourceIssues
      rw [if_neg (by simp [hb]), if_neg (by simp [hs])]
    unfold validate_report_quality
    rw [if_neg (by omega), if_neg (by omega),
      if_neg (fun h0 => h3 (List.length_eq_zero.mp h0)),
      if_neg (fun h0 => h4 (List.length_eq_zero.mp h0)),
      if_neg (fun h0 => h5 (List.length_eq_zero.mp h0)),
      if_neg (by omega),
      if_neg (fun h0 => h7 (List.length_eq_zero.mp h0)),
      hfm]
    rfl

/-- Witness for C7: the concrete well-formed sample report passes with no
issues, and dropping its strengths produces the strengths issue. -/
theorem validate_report_quality_spec_witness :
    validate_report_quality sampleReport = (true, []) ∧
    "No strengths identified" ∈ (validate_report_quality
      { sampleReport with
        insights := { strengths := [], weaknesses := sampleReport.insights.weaknesses } }).2 := by
  constructor
  · exact validate_report_quality_spec.2.2.2.2.2 sampleReport
      (by unfold wellFormedReport; decide)
  · exact validate_report_quality_spec.2.2.1 _ rfl

/-- C8 (amended): for every transcript mapping `m` that does not itself
contain a literal `transcript` key, wrapping is transparent: applying
`format_transcript` or `validate_transcript` to any outer mapping holding
`m` under the key `transcript` equals applying them to `m` directly. -/
theorem wrap_transparent (outer : List (String × PyVal)) (m : List (String × String))
    (hm : m.lookup "transcript" = none)
    (ho : outer.lookup "transcript" = some (.obj m)) :
    format_transcript outer = format_transcript (strDict m) ∧
    validate_transcript outer = validate_transcript (strDict m) := by
  constructor
  · unfold format_transcript
    rw [ho, lookup_strDict, hm]
    rfl
  · unfold validate_transcript
    rw [ho, lookup_strDict, hm]
    rfl

/-- Counterexample to C8 as stated: for the flat mapping `mBad`, which
itself contains a `transcript` key, the wrapped and flat forms disagree —
the flat form is unwrapped a second time, so `format_transcript` raises an
`AttributeError` and `validate_transcript` reports a different failure. -/
theorem wrap_transparent_cex :
    format_transcript [("transcript", PyVal.obj mBad)] ≠ format_transcript (strDict mBad) ∧
    validate_transcript [("transcript", PyVal.obj mBad)] ≠ validate_transcript (strDict mBad) ∧
    format_transcript (strDict mBad) = .error attrErrKeys ∧
    format_transcript [("transcript", PyVal.obj mBad)] = .ok "Candidate: y\n\nCandidate: x" ∧
    validate_transcript (strDict mBad) =
      .ok (false, some "Transcript must have at least 2 exchanges") ∧
    validate_transcript [("transcript", PyVal.obj mBad)] =
      .ok (false, some "Transcript must include interviewer questions") := by
  refine ⟨by decide, by decide, by decide, by decide, by decide, by decide⟩

/-- Witness for the amended C8 at the request shape `main.py` actually
sends (metadata key plus the wrapped transcript). -/
theorem wrap_transparent_witness :
    format_transcript
        [("metadata", PyVal.obj [("candidate_id", "C-1")]),
         ("transcript", PyVal.obj [("interviewer", "Q?"), ("candidate", "A.")])] =
      format_transcript (strDict [("interviewer", "Q?"), ("candidate", "A.")]) ∧
    validate_transcript
        [("metadata", PyVal.obj [("candidate_id", "C-1")]),
         ("transcript", PyVal.obj [("interviewer", "Q?"), ("candidate", "A.")])] =
      validate_transcript (strDict [("interviewer", "Q?"), ("candidate", "A.")]) :=
  wrap_transparent _ [("interviewer", "Q?"), ("candidate", "A.")] rfl rfl

/-- C2 (amended): with `max_retries ≥ 1`, if the backend call fails on
attempts `1..k-1` and succeeds on attempt `k ≤ max_retries`, the stage
runner returns the attempt-`k` result without raising; if all attempts
fail, it re-raises the last underlying error unchanged, and the stage name
is recorded in the error log (`"[stage] All attempts failed"`) rather than
in the raised error itself. -/
theorem invoke_with_retry_policy {α : Type} (stage : String)
    (call : Nat → Except String α) (maxR k : Nat) (r : α) (errs : Nat → String)
    (hm : 1 ≤ maxR) :
    ((1 ≤ k ∧ k ≤ maxR ∧ (∀ i, 1 ≤ i → i < k → call i = .error (errs i)) ∧
        call k = .ok r) →
      (invoke_with_retry stage call maxR).1 = .ok r) ∧
    ((∀ i, 1 ≤ i → i ≤ maxR → call i = .error (errs i)) →
      (invoke_with_retry stage call maxR).1 = .exhausted (errs maxR) ∧
        ("[" ++ stage ++ "] All attempts failed") ∈ (invoke_with_retry stage call maxR).2.1) := by
  constructor
  · rintro ⟨hk1, hk2, hfail, hok⟩
    exact retryLoop_ok stage call maxR k r hk2 hok maxR 1 (by omega) hk1
      (fun i h1 h2 => ⟨errs i, hfail i h1 h2⟩)
  · intro hall
    exact retryLoop_exhaust stage call maxR (errs maxR) (hall maxR hm le_rfl) maxR 1
      (by omega) hm (fun i h1 h2 => ⟨errs i, hall i h1 h2⟩)

/-- Counterexample to C2 as stated: when every attempt fails, the raised
value is the bare last underlying error (`"boom"`), which does not name
the stage — the stage name appears only in the log. -/
theorem invoke_with_retry_policy_cex :
    (invoke_with_retry "Analyst"
        (fun _ => (Except.error "boom" : Except String AnalysisReport)) 1).1 =
      RetryOutcome.exhausted "boom" ∧
    hasSubstr "boom" "Analyst" = false := by
  refine ⟨by decide, by decide⟩

/-- Witness for C2: failures on attempts 1 and 2 with success on attempt 3
return the attempt-3 result; three failures raise the last error with the
stage named in the log. -/
theorem invoke_with_retry_policy_witness :
    (invoke_with_retry "Analyst"
        (fun i => if i = 3 then (Except.ok 42 : Except String Nat)
          else .error ("attempt " ++ toString i)) 3).1 = RetryOutcome.ok 42 ∧
    (invoke_with_retry "Synthesis"
        (fun i => (Except.error ("attempt " ++ toString i) : Except String Nat)) 3).1 =
      RetryOutcome.exhausted ("attempt " ++ toString 3) ∧
    ("[Synthesis] All attempts failed") ∈
      (invoke_with_retry "Synthesis"
        (fun i => (Except.error ("attempt " ++ toString i) : Except String Nat)) 3).2.1 := by
  refine ⟨?_, ?_, ?_⟩
  · exact (invoke_with_retry_policy "Analyst"
      (fun i => if i = 3 then (Except.ok 42 : Except String Nat)
        else .error ("attempt " ++ toString i)) 3 3 42
      (fun i => "attempt " ++ toString i) (by omega)).1
      ⟨by omega, by omega, fun i h1 h2 => by interval_cases i <;> rfl, rfl⟩
  · exact ((invoke_with_retry_policy "Synthesis"
      (fun i => (Except.error ("attempt " ++ toString i) : Except String Nat)) 3 3 0
      (fun i => "attempt " ++ toString i) (by omega)).2 (fun i _ _ => rfl)).1
  · exact ((invoke_with_retry_policy "Synthesis"
      (fun i => (Except.error ("attempt " ++ toString i) : Except String Nat)) 3 3 0
      (fun i => "attempt " ++ toString i) (by omega)).2 (fun i _ _ => rfl)).2

/-- C6: a `FinalReport` is stored under the transcript fingerprint only
after both generation stages succeed; every invocation that raises leaves
the cache unchanged, so the cache never holds a report for a run that did
not fully succeed. -/
theorem cache_unchanged_on_raise (p : Pipeline) (env : Env) (t : List (String × PyVal))
    (vi vo uc : Bool) :
    (isReportB (analyze p env t vi vo uc).result = false →
        (analyze p env t vi vo uc).cache = p.cache) ∧
    ((analyze p env t vi vo uc).cache ≠ p.cache →
        ∃ r fmt, (analyze p env t vi vo uc).result = .report r ∧
          format_transcript t = .ok fmt ∧
          (analyze p env t vi vo uc).stageCalls = 2 ∧
          (analyze p env t vi vo uc).cache = dictInsert p.cache (md5_hex fmt) r ∧
          (analyze p env t vi vo uc).cache.lookup (md5_hex fmt) = some r) := by
  cases hv : (if vi then validate_transcript t
      else (.ok (true, none) : Except String (Bool × Option String))) with
  | error e =>
    rw [analyze_eq_vraise p env t vi vo uc e hv]
    exact ⟨fun _ => rfl, fun hne => absurd rfl hne⟩
  | ok res =>
    obtain ⟨b, msg⟩ := res
    cases b with
    | false =>
      rw [analyze_eq_invalid p env t vi vo uc msg hv]
      exact ⟨fun _ => rfl, fun hne => absurd rfl hne⟩
    | true =>
      cases hf : format_transcript t with
      | error e =>
        rw [analyze_eq_fmtraise p env t vi vo uc msg e hv hf]
        exact ⟨fun _ => rfl, fun hne => absurd rfl hne⟩
      | ok fmt =>
        rw [analyze_eq_run p env t vi vo uc msg fmt hv hf]
        cases hl : (if (uc && p.enable_cache) = true
            then p.cache.lookup (md5_hex fmt) else none) with
        | some r =>
          rw [runStages_eq_hit p env fmt uc r hl]
          exact ⟨fun _ => rfl, fun hne => absurd rfl hne⟩
        | none =>
          cases hs1 : (invoke_with_retry "Analyst" (env.analyst fmt) p.max_retries).1 with
          | exhausted e =>
            rw [runStages_eq_s1exh p env fmt uc e hl hs1]
            exact ⟨fun _ => rfl, fun hne => absurd rfl hne⟩
          | fellThrough =>
            rw [runStages_eq_s1fell p env fmt uc hl hs1]
            exact ⟨fun _ => rfl, fun hne => absurd rfl hne⟩
          | ok ar =>
            cases hs2 : (invoke_with_retry "Synthesis" (env.synthesis ar) p.max_retries).1 with
            | exhausted e =>
              rw [runStages_eq_s2exh p env fmt uc ar e hl hs1 hs2]
              exact ⟨fun _ => rfl, fun hne => absurd rfl hne⟩
            | fellThrough =>
              rw [runStages_eq_s2fell p env fmt uc ar hl hs1 hs2]
              exact ⟨fun _ => rfl, fun hne => absurd rfl hne⟩
            | ok fr =>
              rw [runStages_eq_success p env fmt uc ar fr hl hs1 hs2]
              constructor
              · intro hrep
                simp [isReportB] at hrep
              · intro hne
                cases hcc : (uc && p.enable_cache) with
                | false =>
                  exfalso
                  apply hne
                  simp [hcc]
                | true =>
                  refine ⟨fr, fmt, rfl, rfl, rfl, by simp, ?_⟩
                  simp only [if_pos]
                  exact lookup_dictInsert_self p.cache (md5_hex fmt) fr

/-- Witness for C6: a failing run leaves the cache empty; a successful run
enters both stages. -/
theorem cache_unchanged_on_raise_witness :
    (analyze (mkPipeline true 1) envFail tFlat true true true).cache = [] ∧
    (analyze (mkPipeline true 1) envOk tFlat true true true).stageCalls = 2 := by
  constructor
  · exact (cache_unchanged_on_raise (mkPipeline true 1) envFail tFlat true true true).1
      (by decide)
  · obtain ⟨r, fmt, _, _, hst, _, _⟩ :=
      (cache_unchanged_on_raise (mkPipeline true 1) envOk tFlat true true true).2 (by decide)
    exact hst

/-- C9: with `enable_cache = false` at construction, `analyze` never
returns a cached value (the cache-hit path is unreachable and the cache is
never written), every call that returns a report ran both generation
stages, and `get_cache_stats` reports only `enabled = false`. -/
theorem cache_disabled_mode (p : Pipeline) (env : Env) (t : List (String × PyVal))
    (vi vo uc : Bool) (hc : p.enable_cache = false) :
    (analyze p env t vi vo uc).cacheHit = false ∧
    (analyze p env t vi vo uc).cache = p.cache ∧
    (∀ r, (analyze p env t vi vo uc).result = .report r →
        (analyze p env t vi vo uc).stageCalls = 2) ∧
    get_cache_stats p = .disabled := by
  have hstats : get_cache_stats p = .disabled := by
    unfold get_cache_stats
    rw [if_pos (by simp [hc])]
  have hl : ∀ fmt, (if (uc && p.enable_cache) = true
      then p.cache.lookup (md5_hex fmt) else none) = none := by
    intro fmt
    rw [if_neg (by simp [hc])]
  cases hv : (if vi then validate_transcript t
      else (.ok (true, none) : Except String (Bool × Option String))) with
  | error e =>
    rw [analyze_eq_vraise p env t vi vo uc e hv]
    exact ⟨rfl, rfl, fun r hr => by simp at hr, hstats⟩
  | ok res =>
    obtain ⟨b, msg⟩ := res
    cases b with
    | false =>
      rw [analyze_eq_invalid p env t vi vo uc msg hv]
      exact ⟨rfl, rfl, fun r hr => by simp at hr, hstats⟩
    | true =>
      cases hf : format_transcript t with
      | error e =>
        rw [analyze_eq_fmtraise p env t vi vo uc msg e hv hf]
        exact ⟨rfl, rfl, fun r hr => by simp at hr, hstats⟩
      | ok fmt =>
        rw [analyze_eq_run p env t vi vo uc msg fmt hv hf]
        cases hs1 : (invoke_with_retry "Analyst" (env.analyst fmt) p.max_retries).1 with
        | exhausted e =>
          rw [runStages_eq_s1exh p env fmt uc e (hl fmt) hs1]
          exact ⟨rfl, rfl, fun r hr => by simp at hr, hstats⟩
        | fellThrough =>
          rw [runStages_eq_s1fell p env fmt uc (hl fmt) hs1]
          exact ⟨rfl, rfl, fun r hr => by simp at hr, hstats⟩
        | ok ar =>
          cases hs2 : (invoke_with_retry "Synthesis" (env.synthesis ar) p.max_retries).1 with
          | exhausted e =>
            rw [runStages_eq_s2exh p env fmt uc ar e (hl fmt) hs1 hs2]
            exact ⟨rfl, rfl, fun r hr => by simp at hr, hstats⟩
          | fellThrough =>
            rw [runStages_eq_s2fell p env fmt uc ar (hl fmt) hs1 hs2]
            exact ⟨rfl, rfl, fun r hr => by simp at hr, hstats⟩
          | ok fr =>
            rw [runStages_eq_success p env fmt uc ar fr (hl fmt) hs1 hs2]
            refine ⟨rfl, by simp [hc], fun r hr => rfl, hstats⟩

/-- Witness for C9: with caching disabled, repeating the identical call
re-runs both stages and the stats record carries no size or keys. -/
theorem cache_disabled_mode_witness :
    (analyze (mkPipeline false 3) envOk tFlat true true true).cacheHit = false ∧
    (analyze (mkPipeline false 3) envOk tFlat true true true).stageCalls = 2 ∧
    (analyze (mkPipeline false 3) envOk tFlat true true true).cache = [] ∧
    get_cache_stats (mkPipeline false 3) = .disabled := by
  have h := cache_disabled_mode (mkPipeline false 3) envOk tFlat true true true rfl
  exact ⟨h.1, h.2.2.1 sampleReport (by decide), h.2.1, h.2.2.2⟩

/-- C1: with caching enabled and `use_cache` true, a first `analyze` call
that returns a report leaves that report stored under the fingerprint
(the MD5 hex digest of the normalized transcript text), and a second call
with the identical transcript returns the same report from the cache-hit
early return, with zero generation-stage invocations and zero backend
calls. -/
theorem analyze_cache_idempotent (p : Pipeline) (env : Env) (t : List (String × PyVal))
    (vi vo : Bool) (r : FinalReport) (hc : p.enable_cache = true)
    (h1 : (analyze p env t vi vo true).result = .report r) :
    (∃ fmt, format_transcript t = .ok fmt ∧
        (analyze p env t vi vo true).cache.lookup (md5_hex fmt) = some r) ∧
    (analyze { p with cache := (analyze p env t vi vo true).cache } env t vi vo true).result =
        .report r ∧
    (analyze { p with cache := (analyze p env t vi vo true).cache } env t vi vo
        true).stageCalls = 0 ∧
    (analyze { p with cache := (analyze p env t vi vo true).cache } env t vi vo
        true).backendCalls = 0 ∧
    (analyze { p with cache := (analyze p env t vi vo true).cache } env t vi vo
        true).cacheHit = true := by
  cases hv : (if vi then validate_transcript t
      else (.ok (true, none) : Except String (Bool × Option String))) with
  | error e =>
    rw [analyze_eq_vraise p env t vi vo true e hv] at h1
    simp at h1
  | ok res =>
    obtain ⟨b, msg⟩ := res
    cases b with
    | false =>
      rw [analyze_eq_invalid p env t vi vo true msg hv] at h1
      simp at h1
    | true =>
      cases hf : format_transcript t with
      | error e =>
        rw [analyze_eq_fmtraise p env t vi vo true msg e hv hf] at h1
        simp at h1
      | ok fmt =>
        have hrun := analyze_eq_run p env t vi vo true msg fmt hv hf
        rw [hrun] at h1
        have hlook : (runStages p env fmt true).cache.lookup (md5_hex fmt) = some r :=
          runStages_success_caches p env fmt r hc h1
        have h2 : analyze { p with cache := (analyze p env t vi vo true).cache } env t vi vo
            true = runStages { p with cache := (analyze p env t vi vo true).cache } env fmt
            true :=
          analyze_eq_run _ env t vi vo true msg fmt hv hf
        have hhit : runStages { p with cache := (analyze p env t vi vo true).cache } env fmt
            true = ⟨.report r, (analyze p env t vi vo true).cache, 0, 0, true⟩ := by
          apply runStages_hit
          · exact hc
          · show (analyze p env t vi vo true).cache.lookup (md5_hex fmt) = some r
            rw [hrun]
            exact hlook
        refine ⟨⟨fmt, rfl, by rw [hrun]; exact hlook⟩, ?_, ?_, ?_, ?_⟩ <;>
          rw [h2, hhit]

/-- Witness for C1: a concrete first call succeeds and the second call on
the resulting state is a cache hit with zero stage and backend calls. -/
theorem analyze_cache_idempotent_witness :
    (analyze { mkPipeline true 3 with
        cache := (analyze (mkPipeline true 3) envOk tFlat true true true).cache }
      envOk tFlat true true true).result = .report sampleReport ∧
    (analyze { mkPipeline true 3 with
        cache := (analyze (mkPipeline true 3) envOk tFlat true true true).cache }
      envOk tFlat true true true).stageCalls = 0 ∧
    (analyze { mkPipeline true 3 with
        cache := (analyze (mkPipeline true 3) envOk tFlat true true true).cache }
      envOk tFlat true true true).backendCalls = 0 ∧
    (analyze { mkPipeline true 3 with
        cache := (analyze (mkPipeline true 3) envOk tFlat true true true).cache }
      envOk tFlat true true true).cacheHit = true := by
  have h := analyze_cache_idempotent (mkPipeline true 3) envOk tFlat true true sampleReport
    rfl (by decide)
  exact ⟨h.2.1, h.2.2.1, h.2.2.2.1, h.2.2.2.2⟩

/-- C3 (amended): for well-shaped transcripts (a flat string-valued mapping
with no literal `transcript` key, or such a mapping wrapped under
`transcript`) and `max_retries ≥ 1`, `analyze` raises if and only if
either (a) `validate_input` is true and the transcript fails structural
validation — surfaced as a ValueError distinct from other exceptions,
carrying the validation message unchanged — or (b) a generation stage
exhausts its retry budget, whose last error propagates unchanged; quality
issues found under `validate_output` never change the outcome, and the
report is still returned. -/
theorem analyze_error_boundary (p : Pipeline) (env : Env) (t : List (String × PyVal))
    (vi vo uc : Bool) (hmr : 1 ≤ p.max_retries) (hshape : goodShapeB t = true) :
    (analyze p env t vi true uc = analyze p env t vi false uc) ∧
    ((∃ m, (analyze p env t vi vo uc).result = .valError m) ↔
      (vi = true ∧ ∃ m0, validate_transcript t = .ok (false, some m0))) ∧
    (∀ m0, vi = true → validate_transcript t = .ok (false, some m0) →
      (analyze p env t vi vo uc).result = .valError ("Invalid transcript: " ++ m0)) ∧
    (∀ e, (analyze p env t vi vo uc).result = .pyExc e →
      ∃ fmt, format_transcript t = .ok fmt ∧
        ((invoke_with_retry "Analyst" (env.analyst fmt) p.max_retries).1 = .exhausted e ∨
          ∃ ar, (invoke_with_retry "Analyst" (env.analyst fmt) p.max_retries).1 = .ok ar ∧
            (invoke_with_retry "Synthesis" (env.synthesis ar) p.max_retries).1 =
              .exhausted e)) ∧
    (∀ fmt e, format_transcript t = .ok fmt →
      (vi = false ∨ validate_transcript t = .ok (true, none)) →
      ((uc && p.enable_cache) = false ∨ p.cache.lookup (md5_hex fmt) = none) →
      ((invoke_with_retry "Analyst" (env.analyst fmt) p.max_retries).1 = .exhausted e ∨
        ∃ ar, (invoke_with_retry "Analyst" (env.analyst fmt) p.max_retries).1 = .ok ar ∧
          (invoke_with_retry "Synthesis" (env.synthesis ar) p.max_retries).1 =
            .exhausted e) →
      (analyze p env t vi vo uc).result = .pyExc e) ∧
    ((∃ r, (analyze p env t vi vo uc).result = .report r) ∨
      (∃ m, (analyze p env t vi vo uc).result = .valError m) ∨
      (∃ e, (analyze p env t vi vo uc).result = .pyExc e)) := by
  obtain ⟨⟨vb, vmsg⟩, hval, hvm⟩ := validate_goodShape t hshape
  obtain ⟨fmt0, hfmt0⟩ := format_goodShape t hshape
  refine ⟨rfl, ?_⟩
  cases vi with
  | false =>
    have hv : (if false then validate_transcript t
        else (.ok (true, none) : Except String (Bool × Option String))) = .ok (true, none) :=
      rfl
    rw [analyze_eq_run p env t false vo uc none fmt0 hv hfmt0]
    refine ⟨?_, ?_, ?_, ?_, ?_⟩
    · constructor
      · rintro ⟨m, hm⟩
        exact absurd hm (runStages_no_valError p env fmt0 uc m)
      · rintro ⟨hcontr, -⟩
        exact absurd hcontr (by simp)
    · intro m0 hcontr
      exact absurd hcontr (by simp)
    · intro e he
      exact ⟨fmt0, hfmt0, ((runStages_pyExc_iff p env fmt0 uc hmr e).mp he).2⟩
    · intro fmt e hfmt hvv hmiss hex
      have hfe : fmt0 = fmt := by
        have := hfmt0.symm.trans hfmt
        simpa using this
      subst hfe
      have hmiss' : (if (uc && p.enable_cache) = true
          then p.cache.lookup (md5_hex fmt0) else none) = none := by
        rcases hmiss with h | h
        · rw [if_neg (by simp [h])]
        · by_cases hcc : (uc && p.enable_cache) = true
          · rw [if_pos hcc]; exact h
          · rw [if_neg hcc]
      exact (runStages_pyExc_iff p env fmt0 uc hmr e).mpr ⟨hmiss', hex⟩
    · rcases runStages_total p env fmt0 uc with ⟨r, hr⟩ | ⟨e, he⟩
      · exact Or.inl ⟨r, hr⟩
      · exact Or.inr (Or.inr ⟨e, he⟩)
  | true =>
    have hv : (if true then validate_transcript t
        else (.ok (true, none) : Except String (Bool × Option String))) =
        validate_transcript t := rfl
    cases vb with
    | false =>
      obtain ⟨m0, hm0⟩ := hvm rfl
      subst hm0
      rw [analyze_eq_invalid p env t true vo uc (some m0) (hv.trans hval)]
      refine ⟨?_, ?_, ?_, ?_, ?_⟩
      · exact ⟨fun _ => ⟨rfl, m0, hval⟩, fun _ => ⟨_, rfl⟩⟩
      · intro m0' _ hval'
        have hm : m0 = m0' := by
          have := hval.symm.trans hval'
          simpa using this
        subst hm
        rfl
      · intro e he
        simp at he
      · intro fmt e hfmt hvv hmiss hex
        rcases hvv with h | h
        · exact absurd h (by simp)
        · exact absurd (hval.symm.trans h) (by simp)
      · exact Or.inr (Or.inl ⟨_, rfl⟩)
    | true =>
      rw [analyze_eq_run p env t true vo uc vmsg fmt0 (hv.trans hval) hfmt0]
      refine ⟨?_, ?_, ?_, ?_, ?_⟩
      · constructor
        · rintro ⟨m, hm⟩
          exact absurd hm (runStages_no_valError p env fmt0 uc m)
        · rintro ⟨-, m0, hm0⟩
          exact absurd (hval.symm.trans hm0) (by simp)
      · intro m0 _ hval'
        exact absurd (hval.symm.trans hval') (by simp)
      · intro e he
        exact ⟨fmt0, hfmt0, ((runStages_pyExc_iff p env fmt0 uc hmr e).mp he).2⟩
      · intro fmt e hfmt hvv hmiss hex
        have hfe : fmt0 = fmt := by
          have := hfmt0.symm.trans hfmt
          simpa using this
        subst hfe
        have hmiss' : (if (uc && p.enable_cache) = true
            then p.cache.lookup (md5_hex fmt0) else none) = none := by
          rcases hmiss with h | h
          · rw [if_neg (by simp [h])]
          · by_cases hcc : (uc && p.enable_cache) = true
            · rw [if_pos hcc]; exact h
            · rw [if_neg hcc]
        exact (runStages_pyExc_iff p env fmt0 uc hmr e).mpr ⟨hmiss', hex⟩
      · rcases runStages_total p env fmt0 uc with ⟨r, hr⟩ | ⟨e, he⟩
        · exact Or.inl ⟨r, hr⟩
        · exact Or.inr (Or.inr ⟨e, he⟩)

/-- Counterexample to C3 as stated: the flat string-valued payload `tBad`
maps the literal key `transcript` to the string `"ab"`, so with
`validate_input = true` the call raises an `AttributeError` — neither a
validation-error-kind failure (a ValueError) nor a stage-retry exhaustion
(no generation stage was ever invoked). -/
theorem analyze_error_boundary_cex :
    (analyze (mkPipeline true 3) envFail tBad true true true).result = .pyExc attrErrKeys ∧
    (analyze (mkPipeline true 3) envFail tBad true true true).stageCalls = 0 ∧
    (analyze (mkPipeline true 3) envFail tBad true true true).backendCalls = 0 := by
  refine ⟨by decide, by decide, by decide⟩

/-- Witness for C3: with an always-failing backend and one retry, a
concrete well-shaped call raises the backend error unchanged; with a
failing transcript it raises the ValueError carrying the validation
message. -/
theorem analyze_error_boundary_witness :
    (analyze (mkPipeline true 1) envFail tFlat true true true).result = .pyExc "boom" ∧
    (analyze (mkPipeline true 1) envFail
        (strDict [("interviewer", "q")]) true true true).result =
      .valError ("Invalid transcript: " ++ "Transcript must have at least 2 exchanges") := by
  constructor
  · exact (analyze_error_boundary (mkPipeline true 1) envFail tFlat true true true
      (by decide) (by decide)).2.2.2.2.1 "Interviewer: q\n\nCandidate: a" "boom"
      (by decide) (Or.inr (by decide)) (Or.inr rfl) (Or.inl (by decide))
  · exact (analyze_error_boundary (mkPipeline true 1) envFail
      (strDict [("interviewer", "q")]) true true true (by decide) (by decide)).2.2.1
      "Transcript must have at least 2 exchanges" rfl (by decide)
